import Mathlib

/-!
Meshlet helpers of Gears-Vk: a shallow embedding

The definitions below follow `framework/include/meshlet_helpers.hpp`.

* `uint32_t` and `uint8_t` values are natural numbers; where the source narrows a
  value (the 8-bit count fields, the 32-bit sum `mIndexCount + 3`) the reduction
  modulo `2 ^ w` is written out. That the elements of an input vector lie in the range
  of their type is a hypothesis of the theorems that need it.
* `std::vector` is `List`; the loop of `convert_for_gpu_usage` is a recursion over the
  meshlets that passes `gpuMeshlets` and `vertexIndices` along.
* The template `convert_for_gpu_usage<T>` has two instantiations, selected by
  `if constexpr`; each is one definition here.
* The indirect branch reads the index bytes through a `uint32_t` pointer and so reads up to
  three bytes behind the end of `mIndices`; such a byte is taken from a parameter `behind`
  that stands for the memory found there. The fixed branch copies whole vectors into fixed
  arrays; a copy that does not fit has no meaningful result (`Outcome.undefined`).
-/

namespace gvk

/-! ## Data model -/

/-- Meshlet struct for the CPU side (`struct meshlet`). `mModel` is the handle of the
owning model; `mVertices` holds `uint32_t`, `mIndices` holds `uint8_t`. -/
structure meshlet where
  mModel : Nat
  mMeshIndex : Option Nat
  mVertices : List Nat
  mIndices : List Nat
  mVertexCount : Nat
  mIndexCount : Nat
deriving DecidableEq, Repr

/-- Meshlet for GPU usage (`struct meshlet_gpu_data`): `mVertices` is the array
`uint32_t[64]`, `mIndices` the array `uint8_t[378]`, the counts are `uint8_t`. -/
structure meshlet_gpu_data where
  mVertices : List Nat
  mIndices : List Nat
  mVertexCount : Nat
  mTriangleCount : Nat
deriving DecidableEq, Repr

/-- Meshlet for GPU usage in combination with the meshlet data
(`struct meshlet_indirect_gpu_data`): a `uint32_t` offset and two `uint8_t` counts. -/
structure meshlet_indirect_gpu_data where
  mDataOffset : Nat
  mVertexCount : Nat
  mTriangleCount : Nat
deriving DecidableEq, Repr

/-- Capacity of `meshlet_gpu_data::mVertices`. -/
def cFixedVertices : Nat := 64

/-- Capacity of `meshlet_gpu_data::mIndices` (126 * 3). -/
def cFixedIndices : Nat := 378

/-! ## `convert_for_gpu_usage<meshlet_indirect_gpu_data>` -/

/-- Byte `p` of the storage `meshlet.mIndices.data()` points to. Below the size of the
vector it is the element `mIndices[p]`; at and above it, it is whatever byte lies behind
the elements in memory, given by `behind` (offset from the end of the vector), a byte. -/
def indexByte (m : meshlet) (behind : Nat → Nat) (p : Nat) : Nat :=
  if h : p < m.mIndices.length then m.mIndices.get ⟨p, h⟩
  else behind (p - m.mIndices.length) % 256

/-- The word `indexGroups[i]` of line 197: the storage of `mIndices` reinterpreted as
`uint32_t`, read at word `i`, that is bytes `4 i .. 4 i + 3`, on a little-endian host. -/
def indexGroups (m : meshlet) (behind : Nat → Nat) (i : Nat) : Nat :=
  indexByte m behind (4 * i) + 256 * indexByte m behind (4 * i + 1)
    + 65536 * indexByte m behind (4 * i + 2) + 16777216 * indexByte m behind (4 * i + 3)

/-- The loop bound of line 194, `(meshlet.mIndexCount + 3) / 4` in `uint32_t` arithmetic. -/
def indexGroupCount (m : meshlet) : Nat :=
  (m.mIndexCount + 3) % 4294967296 / 4

/-- Byte positions of `mIndices.data()` that the packing loop of lines 195-198 reads, in
the order they are read. -/
def indexBytesRead (m : meshlet) : List Nat :=
  (List.range (indexGroupCount m)).flatMap (fun i => [4 * i, 4 * i + 1, 4 * i + 2, 4 * i + 3])

/-- The words pushed by the packing loop of lines 195-198 for one meshlet. -/
def packedIndexWords (m : meshlet) (behind : Nat → Nat) : List Nat :=
  (List.range (indexGroupCount m)).map (indexGroups m behind)

/-- Loop state of `convert_for_gpu_usage<meshlet_indirect_gpu_data>`. -/
structure indirect_state where
  gpuMeshlets : List meshlet_indirect_gpu_data
  vertexIndices : Option (List Nat)
deriving DecidableEq, Repr

/-- The new entry of line 174, `gpuMeshlets.emplace_back()`, after lines 187-188. The
entry is value-initialised, so every member starts as zero; the branch assigns
`mVertexCount` and `mTriangleCount` (both `uint8_t`) and nothing else. -/
def indirect_entry (m : meshlet) : meshlet_indirect_gpu_data :=
  { mDataOffset := 0
    mVertexCount := m.mVertexCount % 256
    mTriangleCount := m.mIndexCount / 3 % 256 }

/-- One iteration of the loop of line 173 in the branch of lines 182-199. -/
def indirect_body (behind : Nat → Nat) (st : indirect_state) (m : meshlet) : indirect_state :=
  let vertexIndices : List Nat :=
    match st.vertexIndices with
    | some v => v
    | none => []
  { gpuMeshlets := st.gpuMeshlets ++ [indirect_entry m]
    vertexIndices := some (vertexIndices ++ m.mVertices ++ packedIndexWords m behind) }

/-- The loop of line 173 from the `k`-th meshlet on; `behind k` is the memory behind the
index storage of the `k`-th meshlet. -/
def indirect_loop (behind : Nat → Nat → Nat) : Nat → List meshlet → indirect_state → indirect_state
  | _, [], st => st
  | k, m :: ms, st => indirect_loop behind (k + 1) ms (indirect_body (behind k) st m)

/-- The instantiation `convert_for_gpu_usage<meshlet_indirect_gpu_data>`: the converted
meshlets and the optional meshlet data. -/
def convert_for_gpu_usage_indirect (meshlets : List meshlet) (behind : Nat → Nat → Nat) :
    List meshlet_indirect_gpu_data × Option (List Nat) :=
  let st := indirect_loop behind 0 meshlets { gpuMeshlets := [], vertexIndices := none }
  (st.gpuMeshlets, st.vertexIndices)

/-- The words one meshlet adds to the meshlet data in `indirect_body`. -/
def meshletWords (m : meshlet) (behind : Nat → Nat) : List Nat :=
  m.mVertices ++ packedIndexWords m behind

/-- The words the meshlets `ms`, the `k`-th and following of the input, add to the meshlet
data. -/
def wordsFrom (behind : Nat → Nat → Nat) : Nat → List meshlet → List Nat
  | _, [] => []
  | k, m :: ms => meshletWords m (behind k) ++ wordsFrom behind (k + 1) ms

/-- Number of words the first `k` meshlets of `ms` add to the meshlet data, which is where
the words of the `k`-th meshlet start. -/
def wordsBefore (ms : List meshlet) (k : Nat) : Nat :=
  ((ms.take k).map (fun m => m.mVertices.length + indexGroupCount m)).sum

/-- Byte `k` (0 the lowest) of a 32-bit word. -/
def byteOfWord (w k : Nat) : Nat := w / 256 ^ k % 256

/-! ## Sample inputs -/

/-- Memory that holds only zero bytes behind every index vector. -/
def zeroBehind : Nat → Nat → Nat := fun _ _ => 0

/-- First meshlet of scenario C: 10 vertices, 12 indices. -/
def scenarioC_first : meshlet :=
  { mModel := 0, mMeshIndex := none
    mVertices := [100, 101, 102, 103, 104, 105, 106, 107, 108, 109]
    mIndices := [0, 1, 2, 2, 3, 4, 4, 5, 6, 7, 8, 9]
    mVertexCount := 10, mIndexCount := 12 }

/-- Second meshlet of scenario C: 5 vertices, 6 indices. -/
def scenarioC_second : meshlet :=
  { mModel := 0, mMeshIndex := none
    mVertices := [200, 201, 202, 203, 204]
    mIndices := [0, 1, 2, 2, 3, 4]
    mVertexCount := 5, mIndexCount := 6 }

/-- Meshlet whose `mVertices` has one allocated slot more than `mVertexCount` says is in
use: 3 vertices in 4 slots, one triangle. -/
def spareSlotMeshlet : meshlet :=
  { mModel := 0, mMeshIndex := none
    mVertices := [10, 11, 12, 0]
    mIndices := [0, 1, 2]
    mVertexCount := 3, mIndexCount := 3 }

/-- Meshlet with one triangle whose `mIndices` has a fourth, unused element that is not
zero. -/
def staleByteMeshlet : meshlet :=
  { mModel := 0, mMeshIndex := none
    mVertices := [10, 11, 12]
    mIndices := [0, 1, 2, 7]
    mVertexCount := 3, mIndexCount := 3 }

/-- Meshlet whose counts exceed the capacities of the fixed form, 65 > 64 and 381 > 378,
while its vectors hold one triangle. -/
def overCountMeshlet : meshlet :=
  { mModel := 0, mMeshIndex := none
    mVertices := [10, 11, 12]
    mIndices := [0, 1, 2]
    mVertexCount := 65, mIndexCount := 381 }

/-- Meshlet with one triangle, `mVertexCount = 3` and `mIndexCount = 3`, whose `mIndices`
holds 380 elements: two more than the array `mIndices[378]` of `meshlet_gpu_data`. The last
two elements are 9 and 8. -/
def overlongIndexMeshlet : meshlet :=
  { mModel := 0, mMeshIndex := none
    mVertices := [10, 11, 12]
    mIndices := [0, 1, 2] ++ List.replicate 375 0 ++ [9, 8]
    mVertexCount := 3, mIndexCount := 3 }

/-! ## `convert_for_gpu_usage<meshlet_gpu_data>` -/

/-- What running a piece of the function comes to: it returns a value, or it runs into
undefined behaviour by writing behind the end of an array. `undefined` is not an error
that the function reports; `convert_for_gpu_usage` has no error path. -/
inductive Outcome (α : Type) where
  | returns (value : α)
  | undefined
deriving DecidableEq, Repr

/-- The copy `std::ranges::copy(source, array)` of lines 179-180 into a value-initialised
(zero) array of `capacity` elements. The copy writes `source.size()` elements; when these
are more than the array holds, it writes behind the array. -/
def copy_into_array (source : List Nat) (capacity : Nat) : Outcome (List Nat) :=
  if source.length ≤ capacity then
    .returns (source ++ List.replicate (capacity - source.length) 0)
  else
    .undefined

/-- The new entry of line 174 after lines 177-180: the two counts narrowed to `uint8_t`,
then the two copies. -/
def fixed_entry (m : meshlet) : Outcome meshlet_gpu_data :=
  match copy_into_array m.mVertices cFixedVertices, copy_into_array m.mIndices cFixedIndices with
  | .returns vertices, .returns indices =>
    .returns { mVertices := vertices
               mIndices := indices
               mVertexCount := m.mVertexCount % 256
               mTriangleCount := m.mIndexCount / 3 % 256 }
  | _, _ => .undefined

/-- The entry `fixed_entry` yields when both copies stay inside their arrays. -/
def paddedEntry (m : meshlet) : meshlet_gpu_data :=
  { mVertices := m.mVertices ++ List.replicate (cFixedVertices - m.mVertices.length) 0
    mIndices := m.mIndices ++ List.replicate (cFixedIndices - m.mIndices.length) 0
    mVertexCount := m.mVertexCount % 256
    mTriangleCount := m.mIndexCount / 3 % 256 }

/-- The loop of line 173 in the branch of lines 175-181, passing `gpuMeshlets` along. -/
def fixed_loop : List meshlet → List meshlet_gpu_data → Outcome (List meshlet_gpu_data)
  | [], gpuMeshlets => .returns gpuMeshlets
  | m :: ms, gpuMeshlets =>
    match fixed_entry m with
    | .returns newEntry => fixed_loop ms (gpuMeshlets ++ [newEntry])
    | .undefined => .undefined

/-- The instantiation `convert_for_gpu_usage<meshlet_gpu_data>`: the converted meshlets
and `vertexIndices`, which this branch never assigns and which stays `std::nullopt`. -/
def convert_for_gpu_usage_fixed (meshlets : List meshlet) :
    Outcome (List meshlet_gpu_data × Option (List Nat)) :=
  match fixed_loop meshlets [] with
  | .returns gpuMeshlets => .returns (gpuMeshlets, none)
  | .undefined => .undefined

/-- The vectors of a meshlet fit the arrays of `meshlet_gpu_data`. -/
def FitsFixed (m : meshlet) : Prop :=
  m.mVertices.length ≤ cFixedVertices ∧ m.mIndices.length ≤ cFixedIndices

instance (m : meshlet) : Decidable (FitsFixed m) := by
  unfold FitsFixed; infer_instance

/-! ## The Cluster invariant of the data model -/

/-- The Cluster of the data model for capacities `maxVertices` and `maxIndices`: the two
sequences hold at most the capacities, the authoritative counts do not exceed what the
sequences hold, and the invariant proper: `vertexCount ≤ maxVertices`,
`indexCount ≤ maxIndices`, `indexCount % 3 = 0`, every value of
`localIndices[0 .. indexCount)` below `vertexCount`. -/
def ClusterInvariant (maxVertices maxIndices : Nat) (m : meshlet) : Prop :=
  m.mVertices.length ≤ maxVertices ∧ m.mIndices.length ≤ maxIndices ∧
  m.mVertexCount ≤ m.mVertices.length ∧ m.mIndexCount ≤ m.mIndices.length ∧
  m.mVertexCount ≤ maxVertices ∧ m.mIndexCount ≤ maxIndices ∧ m.mIndexCount % 3 = 0 ∧
  ∀ b ∈ m.mIndices.take m.mIndexCount, b < m.mVertexCount

instance (maxVertices maxIndices : Nat) (m : meshlet) :
    Decidable (ClusterInvariant maxVertices maxIndices m) := by
  unfold ClusterInvariant; infer_instance

/-! ## `divide_into_meshlets_simple`

The header only declares `divide_into_meshlets_simple` (lines 145-156); its body lies
outside the header. The definitions of this section follow section 4.1 of the
specification, sentence by sentence. -/

/-- Modelled from the spec: the type `model_t`, which the header uses and does not declare,
as far as the builder looks at a model: its handle and the number of vertices of the
selected mesh ("the mesh's vertex count"). -/
structure model_t where
  mHandle : Nat
  vertexCount : Option Nat → Nat

/-- Modelled from the spec: the failures of the Cluster Builder named in section 4.1, which
the missing body of `divide_into_meshlets_simple` would report. -/
inductive builder_error where
  | ConfigurationError
  | InvalidMeshError
deriving DecidableEq, Repr

/-- Modelled from the spec: the current cluster of the body of `divide_into_meshlets_simple`,
"a current cluster with a local vertex-index mapping (original vertex id → local slot)
built incrementally". The local slot of a vertex is its position in `vertices`. -/
structure current_cluster where
  vertices : List Nat
  localIndices : List Nat
deriving DecidableEq, Repr

/-- Modelled from the spec: part of the missing body of `divide_into_meshlets_simple`,
"insert any new vertices (assign next local slot, preserving first-use order)", for one
vertex. -/
def insert_vertex (vertices : List Nat) (v : Nat) : List Nat :=
  if v ∈ vertices then vertices else vertices ++ [v]

/-- Modelled from the spec: part of the missing body of `divide_into_meshlets_simple`, the
vertices of the current cluster after the three vertices of a triangle are inserted. -/
def insert_triangle (vertices : List Nat) (a b c : Nat) : List Nat :=
  insert_vertex (insert_vertex (insert_vertex vertices a) b) c

/-- Modelled from the spec: part of the missing body of `divide_into_meshlets_simple`,
step 1, "how many of its 3 vertices are not yet present in the current cluster's local
mapping". -/
def new_vertices (vertices : List Nat) (a b c : Nat) : Nat :=
  (insert_triangle vertices a b c).length - vertices.length

/-- Modelled from the spec: part of the missing body of `divide_into_meshlets_simple`,
"close the current cluster (finalize `vertexCount`/`indexCount`, push to output)": the
meshlet that is pushed. The local slots go into `mIndices`, a `std::vector<uint8_t>` (line 20
of `meshlet_helpers.hpp`): each element keeps the slot modulo 256. -/
def close_cluster (aModel : model_t) (aMeshIndex : Option Nat) (cur : current_cluster) : meshlet :=
  { mModel := aModel.mHandle
    mMeshIndex := aMeshIndex
    mVertices := cur.vertices
    mIndices := cur.localIndices.map (fun j => j % 256)
    mVertexCount := cur.vertices.length
    mIndexCount := cur.localIndices.length }

/-- Modelled from the spec: part of the missing body of `divide_into_meshlets_simple`,
steps 1 to 3 for one triangle `(a, b, c)`, on the output so far and the current cluster. -/
def add_triangle (aModel : model_t) (aMeshIndex : Option Nat) (aMaxVertices aMaxIndices : Nat)
    (st : List meshlet × current_cluster) (a b c : Nat) : List meshlet × current_cluster :=
  let st1 : List meshlet × current_cluster :=
    if st.2.vertices.length + new_vertices st.2.vertices a b c > aMaxVertices
        ∨ st.2.localIndices.length + 3 > aMaxIndices then
      (st.1 ++ [close_cluster aModel aMeshIndex st.2], { vertices := [], localIndices := [] })
    else st
  let vertices := insert_triangle st1.2.vertices a b c
  (st1.1, { vertices := vertices
            localIndices := st1.2.localIndices
              ++ [vertices.indexOf a, vertices.indexOf b, vertices.indexOf c] })

/-- Modelled from the spec: part of the missing body of `divide_into_meshlets_simple`, "for
each triangle in input order". -/
def triangle_loop (aModel : model_t) (aMeshIndex : Option Nat) (aMaxVertices aMaxIndices : Nat) :
    List Nat → List meshlet × current_cluster → List meshlet × current_cluster
  | a :: b :: c :: rest, st =>
    triangle_loop aModel aMeshIndex aMaxVertices aMaxIndices rest
      (add_triangle aModel aMeshIndex aMaxVertices aMaxIndices st a b c)
  | _, st => st

/-- Modelled from the spec: the missing body of `divide_into_meshlets_simple` (declared in
lines 152-156), after section 4.1: the two failures, the greedy single pass, and "after the
loop, if the current cluster has any triangles, close it". -/
def divide_into_meshlets_simple (aIndices : List Nat) (aModel : model_t)
    (aMeshIndex : Option Nat) (aMaxVertices aMaxIndices : Nat) :
    Except builder_error (List meshlet) :=
  if aMaxIndices % 3 ≠ 0 ∨ aMaxVertices < 3 then
    .error .ConfigurationError
  else if aIndices.length % 3 ≠ 0 ∨ ∃ v ∈ aIndices, aModel.vertexCount aMeshIndex ≤ v then
    .error .InvalidMeshError
  else
    let st := triangle_loop aModel aMeshIndex aMaxVertices aMaxIndices aIndices
      ([], { vertices := [], localIndices := [] })
    if st.2.localIndices = [] then .ok st.1
    else .ok (st.1 ++ [close_cluster aModel aMeshIndex st.2])

/-- The index stream a meshlet stands for: `mVertices[mIndices[j]]` for `j < mIndexCount`. -/
def meshlet.triangles (m : meshlet) : List Nat :=
  (m.mIndices.take m.mIndexCount).map (fun j => m.mVertices.getD j 0)

/-- What holds of the output so far and the current cluster once the index stream
`processed` has passed through the loop of `divide_into_meshlets_simple`. The closed
meshlets and the current cluster stand for `processed` when every local slot fits a
`uint8_t`, that is for `aMaxVertices ≤ 256`. -/
def BuilderInv (aMaxVertices aMaxIndices : Nat) (processed : List Nat)
    (st : List meshlet × current_cluster) : Prop :=
  (aMaxVertices ≤ 256 → st.1.flatMap meshlet.triangles
      ++ st.2.localIndices.map (fun j => st.2.vertices.getD j 0) = processed) ∧
  (∀ j ∈ st.2.localIndices, j < st.2.vertices.length) ∧
  st.2.vertices.length ≤ aMaxVertices ∧
  st.2.localIndices.length ≤ aMaxIndices ∧
  st.2.localIndices.length % 3 = 0 ∧
  ∀ m ∈ st.1, ClusterInvariant aMaxVertices aMaxIndices m ∧
    m.mVertexCount = m.mVertices.length ∧ m.mIndexCount = m.mIndices.length

/-- Step 3 of `add_triangle` on its own: the triangle `(a, b, c)` put into the current
cluster. -/
def put_triangle (st : List meshlet × current_cluster) (a b c : Nat) :
    List meshlet × current_cluster :=
  (st.1, { vertices := insert_triangle st.2.vertices a b c
           localIndices := st.2.localIndices
             ++ [(insert_triangle st.2.vertices a b c).indexOf a,
                 (insert_triangle st.2.vertices a b c).indexOf b,
                 (insert_triangle st.2.vertices a b c).indexOf c] })

/-- Model with handle 7 whose meshes have 1000 vertices each. -/
def sampleModel : model_t := { mHandle := 7, vertexCount := fun _ => 1000 }

/-- Index stream of 86 triangles that name the 258 vertices 0 to 257 once each, in order. -/
def wideStream : List Nat := List.range 258

/-- Meshlet of 258 vertices whose `uint8_t` local indices are the slots 0 to 257 modulo 256:
the last two are 0 and 1. -/
def wideMeshlet : meshlet :=
  { mModel := 7, mMeshIndex := none
    mVertices := List.range 258
    mIndices := List.range 256 ++ [0, 1]
    mVertexCount := 258, mIndexCount := 258 }

/-! ## Determinism of the conversion -/

/-- Two meshlets have identical content: the same `mVertices`, `mIndices`, `mVertexCount`
and `mIndexCount`; `mModel` and `mMeshIndex` may differ. -/
def SameContent (a b : meshlet) : Prop :=
  a.mVertices = b.mVertices ∧ a.mIndices = b.mIndices ∧
    a.mVertexCount = b.mVertexCount ∧ a.mIndexCount = b.mIndexCount

instance (a b : meshlet) : Decidable (SameContent a b) := by
  unfold SameContent; infer_instance

/-- Every byte the packing loop reads for the meshlet is an element of `mIndices`. -/
def ReadsInsideIndices (m : meshlet) : Prop :=
  4 * indexGroupCount m ≤ m.mIndices.length

instance (m : meshlet) : Decidable (ReadsInsideIndices m) := by
  unfold ReadsInsideIndices; infer_instance

/-- Memory that holds the byte 255 behind every index vector. -/
def onesBehind : Nat → Nat → Nat := fun _ _ => 255

/-- Meshlet with one triangle, of model 1 and mesh 0, whose vectors hold exactly what the
counts say. -/
def oneTriangleMeshlet : meshlet :=
  { mModel := 1, mMeshIndex := some 0
    mVertices := [10, 11, 12]
    mIndices := [0, 1, 2]
    mVertexCount := 3, mIndexCount := 3 }

/-- Meshlet with the content of `oneTriangleMeshlet`, of model 2 and no mesh index. -/
def oneTriangleMeshletCopy : meshlet :=
  { mModel := 2, mMeshIndex := none
    mVertices := [10, 11, 12]
    mIndices := [0, 1, 2]
    mVertexCount := 3, mIndexCount := 3 }

/-! ## `divide_vertices_into_meshlets` and `divide_into_meshlets` with a callback

`glm::vec3` positions are values of a type `P`; nothing here computes with them. -/

/-- The exception of line 134, `avk::logic_error`. -/
inductive division_error where
  | logic_error
deriving DecidableEq, Repr

/-- The callback `F aMeshletDivision`, by the branch of the `if constexpr` chain of lines
122-135 that its type selects: a callable that takes the indices (line 122), a callable that
takes the vertices and the indices (line 125), or anything else (line 128). -/
inductive meshlet_division (P : Type) where
  | indices_only (f : List Nat → model_t → Option Nat → Nat → Nat → List meshlet)
  | vertices_and_indices
      (f : List P → List Nat → model_t → Option Nat → Nat → Nat → List meshlet)
  | no_lambda

/-- One invocation of the callback: the arguments it is given. `tVertices` is `none` for a
callable that takes no vertices; `tModel` is the handle of the model. -/
structure division_call (P : Type) where
  tVertices : Option (List P)
  tIndices : List Nat
  tModel : Nat
  tMeshIndex : Option Nat
  tMaxVertices : Nat
  tMaxIndices : Nat
deriving DecidableEq, Repr

/-- What the callback returns for the arguments `divide_vertices_into_meshlets` has at hand
(lines 123 and 126); nothing for `no_lambda`, which is never called. -/
def meshlet_division.meshlets {P : Type} (aMeshletDivision : meshlet_division P)
    (aVertices : List P) (aIndices : List Nat) (aModel : model_t) (aMeshIndex : Option Nat)
    (aMaxVertices aMaxIndices : Nat) : List meshlet :=
  match aMeshletDivision with
  | .indices_only f => f aIndices aModel aMeshIndex aMaxVertices aMaxIndices
  | .vertices_and_indices f => f aVertices aIndices aModel aMeshIndex aMaxVertices aMaxIndices
  | .no_lambda => []

/-- The arguments the callback is invoked with in lines 123 and 126. -/
def meshlet_division.call {P : Type} (aMeshletDivision : meshlet_division P)
    (aVertices : List P) (aIndices : List Nat) (aModel : model_t) (aMeshIndex : Option Nat)
    (aMaxVertices aMaxIndices : Nat) : division_call P :=
  { tVertices :=
      match aMeshletDivision with
      | .vertices_and_indices _ => some aVertices
      | _ => none
    tIndices := aIndices
    tModel := aModel.mHandle
    tMeshIndex := aMeshIndex
    tMaxVertices := aMaxVertices
    tMaxIndices := aMaxIndices }

/-- The loop of lines 137-140: `meshlet.mModel = ownedModel` for every meshlet. -/
def assign_model (ownedModel : model_t) (tmpMeshlets : List meshlet) : List meshlet :=
  tmpMeshlets.map (fun m => { m with mModel := ownedModel.mHandle })

/-- The function `divide_vertices_into_meshlets` of lines 109-143: the meshlets it returns
and the invocations of the callback it makes, or the exception of line 134. -/
def divide_vertices_into_meshlets {P : Type} (aVertices : List P) (aIndices : List Nat)
    (aModel : model_t) (aMeshIndex : Option Nat) (aMaxVertices aMaxIndices : Nat)
    (aMeshletDivision : meshlet_division P) :
    Except division_error (List meshlet × List (division_call P)) :=
  match aMeshletDivision with
  | .indices_only f =>
    .ok (assign_model aModel (f aIndices aModel aMeshIndex aMaxVertices aMaxIndices),
      [aMeshletDivision.call aVertices aIndices aModel aMeshIndex aMaxVertices aMaxIndices])
  | .vertices_and_indices f =>
    .ok (assign_model aModel (f aVertices aIndices aModel aMeshIndex aMaxVertices aMaxIndices),
      [aMeshletDivision.call aVertices aIndices aModel aMeshIndex aMaxVertices aMaxIndices])
  | .no_lambda => .error .logic_error

/-- Functions of the framework that `divide_into_meshlets` calls and the header does not
define: `get_vertices_and_indices` for one model and its mesh indices (line 82),
`model_t::positions_for_mesh` (line 89) and `model_t::indices_for_mesh` (line 90). -/
structure model_queries (P : Type) where
  get_vertices_and_indices : model_t → List Nat → List P × List Nat
  positions_for_mesh : model_t → Nat → List P
  indices_for_mesh : model_t → Nat → List Nat

/-- The loop of lines 88-94 over the mesh indices of one model, on the meshlets and the
callback invocations gathered so far. -/
def submesh_loop {P : Type} (q : model_queries P) (aMeshletDivision : meshlet_division P)
    (aMaxVertices aMaxIndices : Nat) (model : model_t) :
    List Nat → List meshlet × List (division_call P) →
      Except division_error (List meshlet × List (division_call P))
  | [], st => .ok st
  | meshIndex :: rest, st =>
    match divide_vertices_into_meshlets (q.positions_for_mesh model meshIndex)
        (q.indices_for_mesh model meshIndex) model (some meshIndex) aMaxVertices aMaxIndices
        aMeshletDivision with
    | .ok tmp =>
      submesh_loop q aMeshletDivision aMaxVertices aMaxIndices model rest
        (st.1 ++ tmp.1, st.2 ++ tmp.2)
    | .error e => .error e

/-- The loop of lines 77-96 over the models, on the meshlets and the callback invocations
gathered so far. -/
def model_loop {P : Type} (q : model_queries P) (aMeshletDivision : meshlet_division P)
    (aMaxVertices aMaxIndices : Nat) (aCombineSubmeshes : Bool) :
    List (model_t × List Nat) → List meshlet × List (division_call P) →
      Except division_error (List meshlet × List (division_call P))
  | [], st => .ok st
  | (model, meshIndices) :: rest, st =>
    if aCombineSubmeshes then
      match divide_vertices_into_meshlets (q.get_vertices_and_indices model meshIndices).1
          (q.get_vertices_and_indices model meshIndices).2 model none aMaxVertices aMaxIndices
          aMeshletDivision with
      | .ok tmp =>
        model_loop q aMeshletDivision aMaxVertices aMaxIndices aCombineSubmeshes rest
          (st.1 ++ tmp.1, st.2 ++ tmp.2)
      | .error e => .error e
    else
      match submesh_loop q aMeshletDivision aMaxVertices aMaxIndices model meshIndices st with
      | .ok st1 =>
        model_loop q aMeshletDivision aMaxVertices aMaxIndices aCombineSubmeshes rest st1
      | .error e => .error e

/-- The function template `divide_into_meshlets` of lines 72-98: the meshlets it returns and
the invocations of the callback it makes, in order. -/
def divide_into_meshlets {P : Type} (q : model_queries P) (aModels : List (model_t × List Nat))
    (aMeshletDivision : meshlet_division P) (aMaxVertices aMaxIndices : Nat)
    (aCombineSubmeshes : Bool) :
    Except division_error (List meshlet × List (division_call P)) :=
  model_loop q aMeshletDivision aMaxVertices aMaxIndices aCombineSubmeshes aModels ([], [])

/-- Framework queries of a sample: mesh `i` of a model has the positions `[i, i + 1]` and the
indices `[i, i, i]`; the combined buffers hold the mesh indices themselves. -/
def sampleQueries : model_queries Nat :=
  { get_vertices_and_indices := fun _ meshIndices => (meshIndices, meshIndices)
    positions_for_mesh := fun _ i => [i, i + 1]
    indices_for_mesh := fun _ i => [i, i, i] }

/-- Callback of a sample that returns one meshlet, of model 0, holding the indices it is
given as vertices. -/
def sampleDivision : meshlet_division Nat :=
  .indices_only (fun tIndices _ tMeshIndex _ _ =>
    [{ mModel := 0, mMeshIndex := tMeshIndex, mVertices := tIndices, mIndices := [0, 1, 2]
       mVertexCount := 3, mIndexCount := 3 }])

/-- The meshlets the callback returns when `divide_into_meshlets` invokes it for one mesh of
a model, without combining submeshes (lines 89-91). -/
def mesh_meshlets {P : Type} (q : model_queries P) (aMeshletDivision : meshlet_division P)
    (aMaxVertices aMaxIndices : Nat) (model : model_t) (meshIndex : Nat) : List meshlet :=
  aMeshletDivision.meshlets (q.positions_for_mesh model meshIndex)
    (q.indices_for_mesh model meshIndex) model (some meshIndex) aMaxVertices aMaxIndices

/-- The invocation of the callback for one mesh of a model (lines 89-91). -/
def mesh_call {P : Type} (q : model_queries P) (aMeshletDivision : meshlet_division P)
    (aMaxVertices aMaxIndices : Nat) (model : model_t) (meshIndex : Nat) : division_call P :=
  aMeshletDivision.call (q.positions_for_mesh model meshIndex)
    (q.indices_for_mesh model meshIndex) model (some meshIndex) aMaxVertices aMaxIndices

/-- The meshlets the callback returns when `divide_into_meshlets` invokes it for the combined
buffers of a model (lines 82-83). -/
def combined_meshlets {P : Type} (q : model_queries P) (aMeshletDivision : meshlet_division P)
    (aMaxVertices aMaxIndices : Nat) (model : model_t) (meshIndices : List Nat) : List meshlet :=
  aMeshletDivision.meshlets (q.get_vertices_and_indices model meshIndices).1
    (q.get_vertices_and_indices model meshIndices).2 model none aMaxVertices aMaxIndices

/-- The invocation of the callback for the combined buffers of a model (lines 82-83). -/
def combined_call {P : Type} (q : model_queries P) (aMeshletDivision : meshlet_division P)
    (aMaxVertices aMaxIndices : Nat) (model : model_t) (meshIndices : List Nat) :
    division_call P :=
  aMeshletDivision.call (q.get_vertices_and_indices model meshIndices).1
    (q.get_vertices_and_indices model meshIndices).2 model none aMaxVertices aMaxIndices

/-! ## The loops of `skinned_meshlets_app::initialize`

Lines 199-296 and 320 of `examples/skinned_meshlets/source/skinned_meshlets.cpp`. A matrix
`glm::mat4` is a value of a type `M`, a `gvk::material_config` a value of a type `C`, the GPU
meshlet type chosen by `USE_REDIRECTED_GPU_DATA` a type `G`. What the loaded model and the
framework return is given by `model_data`. -/

/-- The struct `loaded_data_for_draw_call` (lines 37-53), without the vertex attributes that
the loops only store: `mMeshletData` (present under `USE_REDIRECTED_GPU_DATA`, empty
otherwise), the matrix, and the two `uint32_t` indices. -/
structure skinned_meshlets_app.loaded_data_for_draw_call (M : Type) where
  mMeshletData : List Nat
  mModelMatrix : M
  mMaterialIndex : Nat
  mModelIndex : Nat
deriving DecidableEq, Repr

/-- The struct `skinned_meshlets_app::meshlet` (lines 83-96) that is uploaded to the GPU. -/
structure skinned_meshlets_app.meshlet (G M : Type) where
  mTransformationMatrix : M
  mMaterialIndex : Nat
  mTexelBufferIndex : Nat
  mModelIndex : Nat
  mGeometry : G
deriving DecidableEq, Repr

/-- What `initialize` obtains for one loaded model from code outside the file:
`select_all_meshes()` (line 211), `distinct_material_configs()` in the order the two loops
of lines 221 and 240 iterate it (line 218), and, for the mesh at position `mpos` with index
`meshIndex`, the GPU meshlets and the optional meshlet data that `divide_into_meshlets`
followed by the conversion of lines 262-276 yields. -/
structure skinned_meshlets_app.model_data (G C : Type) where
  meshIndicesInOrder : List Nat
  distinctMaterials : List (C × List Nat)
  gpuMeshlets : Nat → Nat → List G × Option (List Nat)

/-- The exception of `std::optional::value()` in line 278. -/
inductive skinned_meshlets_app.load_error where
  | bad_optional_access
deriving DecidableEq, Repr

/-- The vectors that the loop of line 200 fills. -/
structure skinned_meshlets_app.load_state (G C M : Type) where
  allMatConfigs : List C
  dataForDrawCall : List (skinned_meshlets_app.loaded_data_for_draw_call M)
  meshletsGeometry : List (skinned_meshlets_app.meshlet G M)

/-- The loop of lines 240-246 on `drawCallData.mMaterialIndex`, a `uint32_t`: it stops at the
first entry whose mesh list contains `meshIndex` and counts the entries before it. -/
def skinned_meshlets_app.material_loop {C : Type} (meshIndex : Nat) :
    List (C × List Nat) → Nat → Nat
  | [], mMaterialIndex => mMaterialIndex
  | pair :: rest, mMaterialIndex =>
    if meshIndex ∈ pair.2 then mMaterialIndex
    else skinned_meshlets_app.material_loop meshIndex rest ((mMaterialIndex + 1) % 4294967296)

/-- The draw-call entry of lines 234-246 and 278 for one mesh: `mMaterialIndex` starts as
`static_cast<int32_t>(matOffset)` stored in a `uint32_t`, `mModelIndex` is
`static_cast<uint32_t>(i)`. -/
def skinned_meshlets_app.draw_call_data {C M : Type} (globalTransform : M) (i matOffset : Nat)
    (distinctMaterials : List (C × List Nat)) (meshIndex : Nat) (mMeshletData : List Nat) :
    skinned_meshlets_app.loaded_data_for_draw_call M :=
  { mMeshletData := mMeshletData
    mModelMatrix := globalTransform
    mMaterialIndex :=
      skinned_meshlets_app.material_loop meshIndex distinctMaterials (matOffset % 4294967296)
    mModelIndex := i % 4294967296 }

/-- The entry of lines 284-293 for one GPU meshlet of a mesh. -/
def skinned_meshlets_app.assemble_meshlet {G M : Type}
    (drawCallData : skinned_meshlets_app.loaded_data_for_draw_call M)
    (texelBufferIndex i : Nat) (genMeshlet : G) : skinned_meshlets_app.meshlet G M :=
  { mTransformationMatrix := drawCallData.mModelMatrix
    mMaterialIndex := drawCallData.mMaterialIndex
    mTexelBufferIndex := texelBufferIndex % 4294967296
    mModelIndex := i % 4294967296
    mGeometry := genMeshlet }

/-- The body of the loop of line 229 for the mesh at position `mpos` of model `i`. -/
def skinned_meshlets_app.mesh_body {G C M : Type} (USE_REDIRECTED_GPU_DATA : Bool)
    (globalTransform : M) (i : Nat) (data : skinned_meshlets_app.model_data G C)
    (matOffset : Nat) (st : skinned_meshlets_app.load_state G C M) (mpos meshIndex : Nat) :
    Except skinned_meshlets_app.load_error (skinned_meshlets_app.load_state G C M) :=
  let texelBufferIndex := st.dataForDrawCall.length
  let converted := data.gpuMeshlets mpos meshIndex
  let mMeshletData : Except skinned_meshlets_app.load_error (List Nat) :=
    if USE_REDIRECTED_GPU_DATA then
      match converted.2 with
      | some generatedMeshletData => .ok generatedMeshletData
      | none => .error .bad_optional_access
    else .ok []
  match mMeshletData with
  | .error e => .error e
  | .ok meshletData =>
    let drawCallData := skinned_meshlets_app.draw_call_data globalTransform i matOffset
      data.distinctMaterials meshIndex meshletData
    .ok { allMatConfigs := st.allMatConfigs
          dataForDrawCall := st.dataForDrawCall ++ [drawCallData]
          meshletsGeometry := st.meshletsGeometry
            ++ converted.1.map
                (skinned_meshlets_app.assemble_meshlet drawCallData texelBufferIndex i) }

/-- The loop of line 229 from position `mpos` on; `rest` holds
`meshIndicesInOrder[mpos ..]`. -/
def skinned_meshlets_app.mesh_loop {G C M : Type} (USE_REDIRECTED_GPU_DATA : Bool)
    (globalTransform : M) (i : Nat) (data : skinned_meshlets_app.model_data G C)
    (matOffset : Nat) :
    Nat → List Nat → skinned_meshlets_app.load_state G C M →
      Except skinned_meshlets_app.load_error (skinned_meshlets_app.load_state G C M)
  | _, [], st => .ok st
  | mpos, meshIndex :: rest, st =>
    match skinned_meshlets_app.mesh_body USE_REDIRECTED_GPU_DATA globalTransform i data
        matOffset st mpos meshIndex with
    | .ok st1 =>
      skinned_meshlets_app.mesh_loop USE_REDIRECTED_GPU_DATA globalTransform i data matOffset
        (mpos + 1) rest st1
    | .error e => .error e

/-- The body of the loop of line 200 for model `i`: `matOffset` is taken, the materials of
the model are pushed to `allMatConfigs` (lines 219-223), then the meshes are processed. -/
def skinned_meshlets_app.model_body {G C M : Type} (USE_REDIRECTED_GPU_DATA : Bool)
    (globalTransform : M) (i : Nat) (data : skinned_meshlets_app.model_data G C)
    (st : skinned_meshlets_app.load_state G C M) :
    Except skinned_meshlets_app.load_error (skinned_meshlets_app.load_state G C M) :=
  let matOffset := st.allMatConfigs.length
  skinned_meshlets_app.mesh_loop USE_REDIRECTED_GPU_DATA globalTransform i data matOffset 0
    data.meshIndicesInOrder
    { allMatConfigs := st.allMatConfigs ++ data.distinctMaterials.map (fun pair => pair.1)
      dataForDrawCall := st.dataForDrawCall
      meshletsGeometry := st.meshletsGeometry }

/-- The loop of line 200 from model `i` on. -/
def skinned_meshlets_app.load_loop {G C M : Type} (USE_REDIRECTED_GPU_DATA : Bool)
    (globalTransform : M) :
    Nat → List (skinned_meshlets_app.model_data G C) → skinned_meshlets_app.load_state G C M →
      Except skinned_meshlets_app.load_error (skinned_meshlets_app.load_state G C M)
  | _, [], st => .ok st
  | i, data :: rest, st =>
    match skinned_meshlets_app.model_body USE_REDIRECTED_GPU_DATA globalTransform i data st with
    | .ok st1 =>
      skinned_meshlets_app.load_loop USE_REDIRECTED_GPU_DATA globalTransform (i + 1) rest st1
    | .error e => .error e

/-- The part of `initialize` that fills the vectors (lines 188-296), for the loaded models
in order, starting from empty vectors. -/
def skinned_meshlets_app.initialize_meshlets {G C M : Type} (USE_REDIRECTED_GPU_DATA : Bool)
    (globalTransform : M) (loadedModels : List (skinned_meshlets_app.model_data G C)) :
    Except skinned_meshlets_app.load_error (skinned_meshlets_app.load_state G C M) :=
  skinned_meshlets_app.load_loop USE_REDIRECTED_GPU_DATA globalTransform 0 loadedModels
    { allMatConfigs := [], dataForDrawCall := [], meshletsGeometry := [] }

/-- The member `mNumMeshletWorkgroups` after line 320. -/
def skinned_meshlets_app.mNumMeshletWorkgroups {G C M : Type}
    (st : skinned_meshlets_app.load_state G C M) : Nat :=
  st.meshletsGeometry.length

/-- The GPU meshlets of the processed meshes, one list per mesh, in the order the loops of
lines 200 and 229 process the meshes. -/
def skinned_meshlets_app.per_mesh_meshlets {G C : Type}
    (loadedModels : List (skinned_meshlets_app.model_data G C)) : List (List G) :=
  loadedModels.flatMap (fun data =>
    data.meshIndicesInOrder.enum.map (fun pm => (data.gpuMeshlets pm.1 pm.2).1))

/-- The entry of the global meshlet list for the GPU meshlet `genMeshlet` of the mesh whose
draw-call entry `drawCallData` lies at position `position` of `dataForDrawCall`. -/
def skinned_meshlets_app.merged_entry {G M : Type}
    (drawCallData : skinned_meshlets_app.loaded_data_for_draw_call M) (position : Nat)
    (genMeshlet : G) : skinned_meshlets_app.meshlet G M :=
  { mTransformationMatrix := drawCallData.mModelMatrix
    mMaterialIndex := drawCallData.mMaterialIndex
    mTexelBufferIndex := position % 4294967296
    mModelIndex := drawCallData.mModelIndex
    mGeometry := genMeshlet }

/-- The global meshlet list that belongs to the meshes with the GPU meshlets `perMesh` and
the draw-call entries `dataForDrawCall`: for each mesh in order, one entry per GPU meshlet
in order. -/
def skinned_meshlets_app.merged_meshlets {G M : Type} (perMesh : List (List G))
    (dataForDrawCall : List (skinned_meshlets_app.loaded_data_for_draw_call M)) :
    List (skinned_meshlets_app.meshlet G M) :=
  (perMesh.zip dataForDrawCall).enum.flatMap (fun entry =>
    entry.2.1.map (skinned_meshlets_app.merged_entry entry.2.2 entry.1))

/-- What holds of the vectors once the meshes with the GPU meshlets `perMesh` have been
processed. -/
def skinned_meshlets_app.MergeInv {G C M : Type} (perMesh : List (List G))
    (st : skinned_meshlets_app.load_state G C M) : Prop :=
  st.dataForDrawCall.length = perMesh.length ∧
  st.meshletsGeometry = skinned_meshlets_app.merged_meshlets perMesh st.dataForDrawCall ∧
  st.meshletsGeometry.length = (perMesh.map List.length).sum

/-- Loaded model of a sample: the meshes 5 and 6, the material 20 with the mesh list `[5]`
and the material 21 with the mesh list `[6, 5]`, and `mpos + 1` GPU meshlets
`10 * meshIndex + n` for the mesh at position `mpos`. -/
def skinned_meshlets_app.sampleData : skinned_meshlets_app.model_data Nat Nat :=
  { meshIndicesInOrder := [5, 6]
    distinctMaterials := [(20, [5]), (21, [6, 5])]
    gpuMeshlets := fun mpos meshIndex =>
      ((List.range (mpos + 1)).map (fun n => 10 * meshIndex + n), some [meshIndex]) }

/-! ## The cache file of a mesh

Lines 265 and 272 of `skinned_meshlets.cpp`. A `std::string` is a list of characters. -/

/-- The character of a decimal digit. -/
def digit_char (d : Nat) : Char :=
  match d with
  | 0 => '0'
  | 1 => '1'
  | 2 => '2'
  | 3 => '3'
  | 4 => '4'
  | 5 => '5'
  | 6 => '6'
  | 7 => '7'
  | 8 => '8'
  | _ => '9'

/-- The library function `std::to_string` on a `size_t`: the decimal digits, most
significant first, and `"0"` for zero. -/
def to_string (n : Nat) : List Char :=
  if n = 0 then ['0'] else (Nat.digits 10 n).reverse.map digit_char

/-- The file name given to `gvk::serializer` in line 265 (without
`USE_REDIRECTED_GPU_DATA`) and in line 272 (with it). -/
def skinned_meshlets_app.cache_file_name (USE_REDIRECTED_GPU_DATA : Bool)
    (meshname : List Char) (mpos : Nat) : List Char :=
  (if USE_REDIRECTED_GPU_DATA then "indirect_meshlets-".toList else "direct_meshlets-".toList)
    ++ meshname ++ "-".toList ++ to_string mpos ++ ".cache".toList

/-- The cached conversion that lines 265-266 or 272-273 ask for: the file of the serializer
and the template arguments `sNumVertices` and `sNumIndices` of
`convert_for_gpu_usage_cached`. -/
structure skinned_meshlets_app.cached_conversion where
  file : List Char
  numVertices : Nat
  numIndices : Nat
deriving DecidableEq, Repr

/-- The cached conversion of lines 263-277 for the mesh `meshname` at position `mpos`, with
the constants `sNumVertices` and `sNumIndices` of lines 7-8. -/
def skinned_meshlets_app.cached_conversion_of (sNumVertices sNumIndices : Nat)
    (USE_REDIRECTED_GPU_DATA : Bool) (meshname : List Char) (mpos : Nat) :
    skinned_meshlets_app.cached_conversion :=
  { file := skinned_meshlets_app.cache_file_name USE_REDIRECTED_GPU_DATA meshname mpos
    numVertices := sNumVertices
    numIndices := sNumIndices }

/-! ## The Content Cache

`convert_for_gpu_usage_cached` and `gvk::serializer` are called in lines 265-273 of
`skinned_meshlets.cpp` and defined elsewhere in the framework. The definitions of this
section follow section 4.3 of the specification. How a GPU meshlet of type `T` lies in
memory is given by a `raw_layout T`. -/

/-- Modelled from the spec: the format selector `fixed | indirect` that
`convert_for_gpu_usage_cached` is instantiated with. -/
inductive format_selector where
  | fixed
  | indirect
deriving DecidableEq, Repr

/-- Modelled from the spec: the fingerprint that addresses an entry of the cache behind
`convert_for_gpu_usage_cached`, "a stable identifier combining mesh/sub-mesh identity,
`maxVertices`, `maxIndices`, the format selector, and a schema version tag". -/
structure fingerprint where
  meshIdentity : List Char
  subMesh : Nat
  maxVertices : Nat
  maxIndices : Nat
  format : format_selector
  schemaVersion : Nat
deriving DecidableEq, Repr

/-- Modelled from the spec: the store behind the missing `gvk::serializer`, one optional
blob of bytes per fingerprint ("missing file" is `none`). -/
def cache_files : Type := fingerprint → Option (List Nat)

/-- Modelled from the spec: `lookup(fingerprint) -> Option<serialized bytes>` of the missing
cache. -/
def lookup (f : fingerprint) (cache : cache_files) : Option (List Nat) :=
  cache f

/-- Modelled from the spec: `store(fingerprint, bytes)` of the missing cache; it overwrites
the entry of the fingerprint. -/
def store (f : fingerprint) (bytes : List Nat) (cache : cache_files) : cache_files :=
  fun g => if g = f then some bytes else cache g

/-- Full meshlet: 64 vertices and 126 triangles, that is 378 indices, in vectors that hold
exactly what the counts say. -/
def fullMeshlet : meshlet :=
  { mModel := 0, mMeshIndex := none
    mVertices := List.range 64
    mIndices := (List.range 378).map (fun j => j % 64)
    mVertexCount := 64, mIndexCount := 378 }

/-! ## Facts about the indirect conversion -/

theorem packedIndexWords_length (m : meshlet) (behind : Nat → Nat) :
    (packedIndexWords m behind).length = indexGroupCount m := by
  simp [packedIndexWords]

theorem meshletWords_length (m : meshlet) (behind : Nat → Nat) :
    (meshletWords m behind).length = m.mVertices.length + indexGroupCount m := by
  simp [meshletWords, packedIndexWords_length]

theorem indirect_loop_gpuMeshlets (behind : Nat → Nat → Nat) (ms : List meshlet) :
    ∀ (k : Nat) (st : indirect_state),
      (indirect_loop behind k ms st).gpuMeshlets = st.gpuMeshlets ++ ms.map indirect_entry := by
  induction ms with
  | nil => intro k st; simp [indirect_loop]
  | cons m ms ih =>
    intro k st
    simp [indirect_loop, ih, indirect_body]

theorem indirect_loop_vertexIndices_cons (behind : Nat → Nat → Nat) (ms : List meshlet) :
    ∀ (k : Nat) (m : meshlet) (st : indirect_state),
      (indirect_loop behind k (m :: ms) st).vertexIndices
        = some (st.vertexIndices.getD [] ++ wordsFrom behind k (m :: ms)) := by
  induction ms with
  | nil =>
    intro k m st
    cases h : st.vertexIndices <;> simp [indirect_loop, indirect_body, wordsFrom, meshletWords, h]
  | cons m2 ms ih =>
    intro k m st
    rw [indirect_loop, ih]
    cases h : st.vertexIndices <;> simp [indirect_body, wordsFrom, meshletWords, h]

theorem convert_indirect_gpuMeshlets (ms : List meshlet) (behind : Nat → Nat → Nat) :
    (convert_for_gpu_usage_indirect ms behind).1 = ms.map indirect_entry := by
  simp [convert_for_gpu_usage_indirect, indirect_loop_gpuMeshlets]

theorem convert_indirect_data_cons (m : meshlet) (ms : List meshlet) (behind : Nat → Nat → Nat) :
    (convert_for_gpu_usage_indirect (m :: ms) behind).2 = some (wordsFrom behind 0 (m :: ms)) := by
  simp [convert_for_gpu_usage_indirect, indirect_loop_vertexIndices_cons]

theorem convert_indirect_data_nil (behind : Nat → Nat → Nat) :
    (convert_for_gpu_usage_indirect [] behind).2 = none := by
  simp [convert_for_gpu_usage_indirect, indirect_loop]

theorem wordsFrom_length (behind : Nat → Nat → Nat) (ms : List meshlet) :
    ∀ k : Nat, (wordsFrom behind k ms).length
      = (ms.map (fun m => m.mVertices.length + indexGroupCount m)).sum := by
  induction ms with
  | nil => intro k; simp [wordsFrom]
  | cons m ms ih => intro k; simp [wordsFrom, ih, meshletWords_length]

theorem wordsBefore_zero (ms : List meshlet) : wordsBefore ms 0 = 0 := by
  simp [wordsBefore]

theorem wordsBefore_succ (m : meshlet) (ms : List meshlet) (k : Nat) :
    wordsBefore (m :: ms) (k + 1)
      = m.mVertices.length + indexGroupCount m + wordsBefore ms k := by
  simp [wordsBefore]

/-- The words of the `k`-th meshlet lie in the meshlet data from `wordsBefore ms k` on. -/
theorem wordsFrom_getElem? (behind : Nat → Nat → Nat) (ms : List meshlet) :
    ∀ (s k : Nat) (m : meshlet) (j : Nat), ms[k]? = some m →
      j < (meshletWords m (behind (s + k))).length →
      (wordsFrom behind s ms)[wordsBefore ms k + j]? = (meshletWords m (behind (s + k)))[j]? := by
  induction ms with
  | nil => intro s k m j h; simp at h
  | cons m0 ms ih =>
    intro s k m j h hj
    cases k with
    | zero =>
      simp at h
      subst h
      simp only [wordsFrom, wordsBefore_zero, Nat.zero_add, Nat.add_zero] at hj ⊢
      exact List.getElem?_append_left hj
    | succ k =>
      simp at h
      have hj2 : j < (meshletWords m (behind (s + 1 + k))).length := by
        have : s + 1 + k = s + (k + 1) := by omega
        rw [this]; exact hj
      have := ih (s + 1) k m j h hj2
      have e : s + 1 + k = s + (k + 1) := by omega
      rw [e] at this
      rw [wordsFrom, wordsBefore_succ, List.getElem?_append_right]
      · rw [meshletWords_length]
        have e2 : m0.mVertices.length + indexGroupCount m0 + wordsBefore ms k + j
            - (m0.mVertices.length + indexGroupCount m0) = wordsBefore ms k + j := by omega
        rw [e2]; exact this
      · rw [meshletWords_length]; omega

theorem convert_indirect_offsets_zero (ms : List meshlet) (behind : Nat → Nat → Nat) :
    ∀ e ∈ (convert_for_gpu_usage_indirect ms behind).1, e.mDataOffset = 0 := by
  intro e he
  rw [convert_indirect_gpuMeshlets] at he
  obtain ⟨m, _, rfl⟩ := List.mem_map.1 he
  rfl

theorem convert_indirect_data_length (m : meshlet) (ms : List meshlet)
    (behind : Nat → Nat → Nat) :
    ∃ data, (convert_for_gpu_usage_indirect (m :: ms) behind).2 = some data ∧
      data.length = ((m :: ms).map (fun x => x.mVertices.length + indexGroupCount x)).sum :=
  ⟨_, convert_indirect_data_cons m ms behind, wordsFrom_length behind (m :: ms) 0⟩

theorem indexGroupCount_eq (m : meshlet) (h : m.mIndexCount + 3 < 4294967296) :
    indexGroupCount m = (m.mIndexCount + 3) / 4 := by
  simp [indexGroupCount, Nat.mod_eq_of_lt h]

theorem indexByte_of_lt (m : meshlet) (behind : Nat → Nat) (p : Nat)
    (h : p < m.mIndices.length) : indexByte m behind p = m.mIndices[p] := by
  simp [indexByte, h]

theorem indexByte_lt (m : meshlet) (behind : Nat → Nat) (hb : ∀ b ∈ m.mIndices, b < 256)
    (p : Nat) : indexByte m behind p < 256 := by
  unfold indexByte
  split
  · exact hb _ (List.get_mem _ _ _)
  · exact Nat.mod_lt _ (by decide)

/-- The `i`-th packed word of the `k`-th meshlet, as it lies in the meshlet data. -/
theorem convert_indirect_packed_word (ms : List meshlet) (behind : Nat → Nat → Nat) (k : Nat)
    (m : meshlet) (hk : ms[k]? = some m) (i : Nat) (hi : i < indexGroupCount m) :
    ∃ data, (convert_for_gpu_usage_indirect ms behind).2 = some data ∧
      data[wordsBefore ms k + m.mVertices.length + i]? = some (indexGroups m (behind k) i) := by
  cases ms with
  | nil => simp at hk
  | cons m0 ms =>
    refine ⟨_, convert_indirect_data_cons m0 ms behind, ?_⟩
    have hlen : m.mVertices.length + i < (meshletWords m (behind (0 + k))).length := by
      rw [meshletWords_length]; omega
    have h := wordsFrom_getElem? behind (m0 :: ms) 0 k m (m.mVertices.length + i) hk hlen
    rw [Nat.zero_add] at h
    rw [Nat.add_assoc, h, meshletWords, List.getElem?_append_right (Nat.le_add_right _ _)]
    simp [packedIndexWords, List.getElem?_range, hi]

theorem byteOfWord_pack (b0 b1 b2 b3 : Nat) (h0 : b0 < 256) (h1 : b1 < 256) (h2 : b2 < 256)
    (h3 : b3 < 256) (j : Nat) (hj : j < 4) :
    byteOfWord (b0 + 256 * b1 + 65536 * b2 + 16777216 * b3) j
      = if j = 0 then b0 else if j = 1 then b1 else if j = 2 then b2 else b3 := by
  unfold byteOfWord
  interval_cases j <;> simp <;> omega

/-! ## Facts about the fixed conversion -/

theorem fixed_entry_of_fits (m : meshlet) (h : FitsFixed m) :
    fixed_entry m = .returns (paddedEntry m) := by
  obtain ⟨hv, hi⟩ := h
  simp [fixed_entry, copy_into_array, hv, hi, paddedEntry]

theorem fixed_loop_of_fits (ms : List meshlet) :
    ∀ acc : List meshlet_gpu_data, (∀ m ∈ ms, FitsFixed m) →
      fixed_loop ms acc = .returns (acc ++ ms.map paddedEntry) := by
  induction ms with
  | nil => intro acc _; simp [fixed_loop]
  | cons m ms ih =>
    intro acc h
    have hm : FitsFixed m := h m (List.mem_cons_self _ _)
    have hms : ∀ x ∈ ms, FitsFixed x := fun x hx => h x (List.mem_cons_of_mem _ hx)
    simp [fixed_loop, fixed_entry_of_fits m hm, ih _ hms]

theorem convert_fixed_of_fits (ms : List meshlet) (h : ∀ m ∈ ms, FitsFixed m) :
    convert_for_gpu_usage_fixed ms = .returns (ms.map paddedEntry, none) := by
  simp [convert_for_gpu_usage_fixed, fixed_loop_of_fits ms [] h]

theorem insert_vertex_eq_append (vs : List Nat) (v : Nat) :
    ∃ t, insert_vertex vs v = vs ++ t ∧ t.length ≤ 1 := by
  unfold insert_vertex
  split
  · exact ⟨[], by simp, by simp⟩
  · exact ⟨[v], rfl, by simp⟩

theorem mem_insert_vertex_self (vs : List Nat) (v : Nat) : v ∈ insert_vertex vs v := by
  unfold insert_vertex
  split
  · assumption
  · simp

theorem mem_insert_vertex_of_mem (vs : List Nat) (v w : Nat) (h : w ∈ vs) :
    w ∈ insert_vertex vs v := by
  obtain ⟨t, ht, _⟩ := insert_vertex_eq_append vs v
  rw [ht]; exact List.mem_append_left _ h

theorem insert_triangle_eq_append (vs : List Nat) (a b c : Nat) :
    ∃ t, insert_triangle vs a b c = vs ++ t ∧ t.length ≤ 3 := by
  obtain ⟨t1, h1, l1⟩ := insert_vertex_eq_append vs a
  obtain ⟨t2, h2, l2⟩ := insert_vertex_eq_append (insert_vertex vs a) b
  obtain ⟨t3, h3, l3⟩ := insert_vertex_eq_append (insert_vertex (insert_vertex vs a) b) c
  refine ⟨t1 ++ t2 ++ t3, ?_, by simp; omega⟩
  rw [insert_triangle, h3, h2, h1]; simp

theorem mem_insert_triangle (vs : List Nat) (a b c : Nat) :
    a ∈ insert_triangle vs a b c ∧ b ∈ insert_triangle vs a b c ∧
      c ∈ insert_triangle vs a b c := by
  unfold insert_triangle
  refine ⟨?_, ?_, mem_insert_vertex_self _ _⟩
  · exact mem_insert_vertex_of_mem _ _ _ (mem_insert_vertex_of_mem _ _ _ (mem_insert_vertex_self _ _))
  · exact mem_insert_vertex_of_mem _ _ _ (mem_insert_vertex_self _ _)

theorem insert_triangle_length (vs : List Nat) (a b c : Nat) :
    (insert_triangle vs a b c).length = vs.length + new_vertices vs a b c := by
  obtain ⟨t, ht, _⟩ := insert_triangle_eq_append vs a b c
  simp [new_vertices, ht]

theorem getD_indexOf_of_mem (l : List Nat) (v : Nat) (h : v ∈ l) :
    l.getD (l.indexOf v) 0 = v := by
  have hlt : l.indexOf v < l.length := List.indexOf_lt_length.2 h
  rw [List.getD_eq_getElem l 0 hlt]
  exact List.getElem_indexOf hlt

theorem close_cluster_triangles (aModel : model_t) (aMeshIndex : Option Nat)
    (cur : current_cluster) (h : ∀ j ∈ cur.localIndices, j < 256) :
    (close_cluster aModel aMeshIndex cur).triangles
      = cur.localIndices.map (fun j => cur.vertices.getD j 0) := by
  have hmap : cur.localIndices.map (fun j => j % 256) = cur.localIndices := by
    conv_rhs => rw [← List.map_id cur.localIndices]
    apply List.map_congr_left
    intro j hj
    exact Nat.mod_eq_of_lt (h j hj)
  simp [close_cluster, meshlet.triangles, hmap]

theorem close_cluster_counts (aModel : model_t) (aMeshIndex : Option Nat)
    (cur : current_cluster) :
    (close_cluster aModel aMeshIndex cur).mVertexCount
        = (close_cluster aModel aMeshIndex cur).mVertices.length ∧
      (close_cluster aModel aMeshIndex cur).mIndexCount
        = (close_cluster aModel aMeshIndex cur).mIndices.length := by
  simp [close_cluster]

theorem close_cluster_invariant (aModel : model_t) (aMeshIndex : Option Nat)
    (aMaxVertices aMaxIndices : Nat) (cur : current_cluster)
    (h2 : ∀ j ∈ cur.localIndices, j < cur.vertices.length)
    (h3 : cur.vertices.length ≤ aMaxVertices) (h4 : cur.localIndices.length ≤ aMaxIndices)
    (h5 : cur.localIndices.length % 3 = 0) :
    ClusterInvariant aMaxVertices aMaxIndices (close_cluster aModel aMeshIndex cur) := by
  have hl : (close_cluster aModel aMeshIndex cur).mIndices.length = cur.localIndices.length := by
    simp [close_cluster]
  refine ⟨h3, by rw [hl]; exact h4, le_refl _, by rw [hl]; exact le_refl _, h3, h4, h5, ?_⟩
  intro b hb
  have hb2 : b ∈ cur.localIndices.map (fun j => j % 256) := List.mem_of_mem_take hb
  obtain ⟨j, hj, rfl⟩ := List.mem_map.1 hb2
  exact lt_of_le_of_lt (Nat.mod_le j 256) (h2 j hj)

theorem put_triangle_inv (aMaxVertices aMaxIndices : Nat) (processed : List Nat)
    (st : List meshlet × current_cluster) (a b c : Nat)
    (h : BuilderInv aMaxVertices aMaxIndices processed st)
    (hv : (insert_triangle st.2.vertices a b c).length ≤ aMaxVertices)
    (hi : st.2.localIndices.length + 3 ≤ aMaxIndices) :
    BuilderInv aMaxVertices aMaxIndices (processed ++ [a, b, c]) (put_triangle st a b c) := by
  obtain ⟨h1, h2, _, _, h5, h6⟩ := h
  obtain ⟨t, ht, _⟩ := insert_triangle_eq_append st.2.vertices a b c
  obtain ⟨ma, mb, mc⟩ := mem_insert_triangle st.2.vertices a b c
  have hold : st.2.localIndices.map (fun j => (insert_triangle st.2.vertices a b c).getD j 0)
      = st.2.localIndices.map (fun j => st.2.vertices.getD j 0) := by
    apply List.map_congr_left
    intro j hj
    rw [ht]
    exact List.getD_append _ _ _ _ (h2 j hj)
  refine ⟨?_, ?_, hv, ?_, ?_, h6⟩
  · intro h256
    show st.1.flatMap meshlet.triangles
        ++ (st.2.localIndices
            ++ [(insert_triangle st.2.vertices a b c).indexOf a,
                (insert_triangle st.2.vertices a b c).indexOf b,
                (insert_triangle st.2.vertices a b c).indexOf c]).map
            (fun j => (insert_triangle st.2.vertices a b c).getD j 0) = processed ++ [a, b, c]
    rw [List.map_append, hold, ← List.append_assoc, h1 h256]
    simp only [List.map_cons, List.map_nil, getD_indexOf_of_mem _ _ ma,
      getD_indexOf_of_mem _ _ mb, getD_indexOf_of_mem _ _ mc]
  · intro j hj
    show j < (insert_triangle st.2.vertices a b c).length
    have hj2 : j ∈ st.2.localIndices
        ++ [(insert_triangle st.2.vertices a b c).indexOf a,
            (insert_triangle st.2.vertices a b c).indexOf b,
            (insert_triangle st.2.vertices a b c).indexOf c] := hj
    rcases List.mem_append.1 hj2 with hj3 | hj3
    · have := h2 j hj3
      rw [ht, List.length_append]; omega
    · simp only [List.mem_cons, List.mem_singleton, List.not_mem_nil, or_false] at hj3
      rcases hj3 with rfl | rfl | rfl
      · exact List.indexOf_lt_length.2 ma
      · exact List.indexOf_lt_length.2 mb
      · exact List.indexOf_lt_length.2 mc
  · show (st.2.localIndices ++ [_, _, _]).length ≤ aMaxIndices
    simp only [List.length_append, List.length_cons, List.length_nil]; omega
  · show (st.2.localIndices ++ [_, _, _]).length % 3 = 0
    simp only [List.length_append, List.length_cons, List.length_nil]; omega

theorem add_triangle_inv (aModel : model_t) (aMeshIndex : Option Nat)
    (aMaxVertices aMaxIndices : Nat) (hV : 3 ≤ aMaxVertices) (hI : 3 ≤ aMaxIndices)
    (processed : List Nat) (st : List meshlet × current_cluster) (a b c : Nat)
    (h : BuilderInv aMaxVertices aMaxIndices processed st) :
    BuilderInv aMaxVertices aMaxIndices (processed ++ [a, b, c])
      (add_triangle aModel aMeshIndex aMaxVertices aMaxIndices st a b c) := by
  by_cases hc : st.2.vertices.length + new_vertices st.2.vertices a b c > aMaxVertices
      ∨ st.2.localIndices.length + 3 > aMaxIndices
  · have e : add_triangle aModel aMeshIndex aMaxVertices aMaxIndices st a b c
        = put_triangle (st.1 ++ [close_cluster aModel aMeshIndex st.2],
            { vertices := [], localIndices := [] }) a b c := by
      simp only [add_triangle, put_triangle, if_pos hc]
    rw [e]
    obtain ⟨h1, h2, h3, h4, h5, h6⟩ := h
    apply put_triangle_inv
    · refine ⟨?_, ?_, ?_, ?_, ?_, ?_⟩
      · intro h256
        simp only [List.flatMap_append, List.flatMap_cons, List.flatMap_nil, List.append_nil,
          List.map_nil,
          close_cluster_triangles aModel aMeshIndex st.2 (fun j hj => by have := h2 j hj; omega)]
        exact h1 h256
      · intro j hj; simp at hj
      · simp
      · simp
      · simp
      · intro m hm
        rcases List.mem_append.1 hm with hm | hm
        · exact h6 m hm
        · rw [List.mem_singleton] at hm
          subst hm
          exact ⟨close_cluster_invariant aModel aMeshIndex aMaxVertices aMaxIndices st.2
            h2 h3 h4 h5, close_cluster_counts aModel aMeshIndex st.2⟩
    · obtain ⟨t, ht, hl⟩ := insert_triangle_eq_append [] a b c
      show (insert_triangle [] a b c).length ≤ aMaxVertices
      rw [ht]; simp; omega
    · show ([] : List Nat).length + 3 ≤ aMaxIndices
      simp; omega
  · have e : add_triangle aModel aMeshIndex aMaxVertices aMaxIndices st a b c
        = put_triangle st a b c := by
      simp only [add_triangle, put_triangle, if_neg hc]
    rw [e]
    apply put_triangle_inv _ _ _ _ _ _ _ h
    · rw [insert_triangle_length]; omega
    · omega

theorem triangle_loop_inv (aModel : model_t) (aMeshIndex : Option Nat)
    (aMaxVertices aMaxIndices : Nat) (hV : 3 ≤ aMaxVertices) (hI : 3 ≤ aMaxIndices) :
    ∀ (n : Nat) (l : List Nat), l.length = 3 * n →
      ∀ (processed : List Nat) (st : List meshlet × current_cluster),
        BuilderInv aMaxVertices aMaxIndices processed st →
        BuilderInv aMaxVertices aMaxIndices (processed ++ l)
          (triangle_loop aModel aMeshIndex aMaxVertices aMaxIndices l st) := by
  intro n
  induction n with
  | zero =>
    intro l hl processed st h
    have : l = [] := List.length_eq_zero.1 (by omega)
    subst this
    simpa [triangle_loop] using h
  | succ n ih =>
    intro l hl processed st h
    match l, hl with
    | a :: b :: c :: rest, hl =>
      have hrest : rest.length = 3 * n := by simp at hl; omega
      have := ih rest hrest (processed ++ [a, b, c]) _
        (add_triangle_inv aModel aMeshIndex aMaxVertices aMaxIndices hV hI processed st a b c h)
      simpa [triangle_loop] using this
    | [], hl => simp at hl
    | [_], hl => simp at hl; omega
    | [_, _], hl => simp at hl; omega

theorem divide_into_meshlets_simple_ok (aIndices : List Nat) (aModel : model_t)
    (aMeshIndex : Option Nat) (aMaxVertices aMaxIndices : Nat)
    (hlen : aIndices.length % 3 = 0) (hV : 3 ≤ aMaxVertices) (hI : 3 ≤ aMaxIndices)
    (hI3 : aMaxIndices % 3 = 0) (hvalid : ∀ v ∈ aIndices, v < aModel.vertexCount aMeshIndex) :
    ∃ ms, divide_into_meshlets_simple aIndices aModel aMeshIndex aMaxVertices aMaxIndices
        = .ok ms ∧
      (aMaxVertices ≤ 256 → ms.flatMap meshlet.triangles = aIndices) ∧
      ∀ m ∈ ms, ClusterInvariant aMaxVertices aMaxIndices m ∧
        m.mVertexCount = m.mVertices.length ∧ m.mIndexCount = m.mIndices.length := by
  have hcfg : ¬ (aMaxIndices % 3 ≠ 0 ∨ aMaxVertices < 3) := by omega
  have hmesh : ¬ (aIndices.length % 3 ≠ 0 ∨ ∃ v ∈ aIndices, aModel.vertexCount aMeshIndex ≤ v) := by
    rintro (h | ⟨v, hv, hle⟩)
    · exact h hlen
    · exact absurd (hvalid v hv) (by omega)
  have hinit : BuilderInv aMaxVertices aMaxIndices []
      (([], { vertices := [], localIndices := [] }) : List meshlet × current_cluster) := by
    refine ⟨by simp, by simp, by simp, by simp, by simp, by simp⟩
  have hn : aIndices.length = 3 * (aIndices.length / 3) := by omega
  have hinv := triangle_loop_inv aModel aMeshIndex aMaxVertices aMaxIndices hV hI
    (aIndices.length / 3) aIndices hn [] _ hinit
  rw [List.nil_append] at hinv
  obtain ⟨h1, h2, h3, h4, h5, h6⟩ := hinv
  unfold divide_into_meshlets_simple
  rw [if_neg hcfg, if_neg hmesh]
  by_cases hempty : (triangle_loop aModel aMeshIndex aMaxVertices aMaxIndices aIndices
      ([], { vertices := [], localIndices := [] })).2.localIndices = []
  · refine ⟨_, if_pos hempty, ?_, h6⟩
    intro h256
    have h1b := h1 h256
    rw [hempty] at h1b
    simpa using h1b
  · refine ⟨_, if_neg hempty, ?_, ?_⟩
    · intro h256
      simp only [List.flatMap_append, List.flatMap_cons, List.flatMap_nil, List.append_nil,
        close_cluster_triangles aModel aMeshIndex _ (fun j hj => by have := h2 j hj; omega)]
      exact h1 h256
    · intro m hm
      rcases List.mem_append.1 hm with hm | hm
      · exact h6 m hm
      · rw [List.mem_singleton] at hm
        subst hm
        exact ⟨close_cluster_invariant aModel aMeshIndex aMaxVertices aMaxIndices _
          h2 h3 h4 h5, close_cluster_counts aModel aMeshIndex _⟩

theorem ok_of_toOption {ε α : Type} (e : Except ε α) (x : α) (h : e.toOption = some x) :
    e = .ok x := by
  cases e with
  | error _ => simp [Except.toOption] at h
  | ok a => simp [Except.toOption] at h; rw [h]

theorem wideStream_meshlets :
    divide_into_meshlets_simple wideStream sampleModel none 258 258 = .ok [wideMeshlet] :=
  ok_of_toOption _ _ (by decide!)

theorem wideMeshlet_triangles :
    [wideMeshlet].flatMap meshlet.triangles = List.range 256 ++ [0, 1] := by
  decide!

theorem wideStream_eq : wideStream = List.range 256 ++ [256, 257] := by
  decide!

/-! ## Facts about the determinism of the conversion -/

theorem indexGroups_of_sameContent (a b : meshlet) (h : SameContent a b)
    (hin : ReadsInsideIndices a) (behind1 behind2 : Nat → Nat) (i : Nat)
    (hi : i < indexGroupCount a) : indexGroups a behind1 i = indexGroups b behind2 i := by
  obtain ⟨_, hidx, _, _⟩ := h
  have hb : ∀ p, p < a.mIndices.length → indexByte a behind1 p = indexByte b behind2 p := by
    intro p hp
    have hp2 : p < b.mIndices.length := by rw [← hidx]; exact hp
    rw [indexByte_of_lt a behind1 p hp, indexByte_of_lt b behind2 p hp2]
    simp [hidx]
  unfold ReadsInsideIndices at hin
  unfold indexGroups
  rw [hb (4 * i) (by omega), hb (4 * i + 1) (by omega), hb (4 * i + 2) (by omega),
    hb (4 * i + 3) (by omega)]

theorem indirect_body_of_sameContent (a b : meshlet) (h : SameContent a b)
    (hin : ReadsInsideIndices a) (behind1 behind2 : Nat → Nat) (st : indirect_state) :
    indirect_body behind1 st a = indirect_body behind2 st b := by
  have hcount : indexGroupCount a = indexGroupCount b := by
    unfold indexGroupCount; rw [h.2.2.2]
  have hwords : packedIndexWords a behind1 = packedIndexWords b behind2 := by
    unfold packedIndexWords
    rw [← hcount]
    apply List.map_congr_left
    intro i hi
    exact indexGroups_of_sameContent a b h hin behind1 behind2 i (List.mem_range.1 hi)
  obtain ⟨hv, _, hvc, hic⟩ := h
  simp only [indirect_body, indirect_entry, hwords, hv, hvc, hic]

theorem indirect_loop_of_sameContent (behind1 behind2 : Nat → Nat → Nat) (ms1 ms2 : List meshlet)
    (h : List.Forall₂ SameContent ms1 ms2) (hin : ∀ m ∈ ms1, ReadsInsideIndices m) :
    ∀ (k : Nat) (st : indirect_state),
      indirect_loop behind1 k ms1 st = indirect_loop behind2 k ms2 st := by
  induction h with
  | nil => intro k st; rfl
  | cons hab _ ih =>
    intro k st
    simp only [indirect_loop]
    rw [indirect_body_of_sameContent _ _ hab (hin _ (List.mem_cons_self _ _)) (behind1 k)
      (behind2 k) st]
    exact ih (fun m hm => hin m (List.mem_cons_of_mem _ hm)) (k + 1) _

/-- The indirect conversion is a function of the content of the meshlets when no byte is
read behind the end of an index vector. -/
theorem convert_indirect_of_sameContent (behind1 behind2 : Nat → Nat → Nat)
    (ms1 ms2 : List meshlet) (h : List.Forall₂ SameContent ms1 ms2)
    (hin : ∀ m ∈ ms1, ReadsInsideIndices m) :
    convert_for_gpu_usage_indirect ms1 behind1 = convert_for_gpu_usage_indirect ms2 behind2 := by
  simp only [convert_for_gpu_usage_indirect,
    indirect_loop_of_sameContent behind1 behind2 ms1 ms2 h hin]

theorem fixed_entry_of_sameContent (a b : meshlet) (h : SameContent a b) :
    fixed_entry a = fixed_entry b := by
  obtain ⟨hv, hi, hvc, hic⟩ := h
  simp only [fixed_entry, hv, hi, hvc, hic]

theorem fixed_loop_of_sameContent (ms1 ms2 : List meshlet)
    (h : List.Forall₂ SameContent ms1 ms2) :
    ∀ acc : List meshlet_gpu_data, fixed_loop ms1 acc = fixed_loop ms2 acc := by
  induction h with
  | nil => intro acc; rfl
  | cons hab _ ih =>
    intro acc
    simp only [fixed_loop, fixed_entry_of_sameContent _ _ hab]
    split
    · exact ih _
    · rfl

/-- The fixed conversion is a function of the content of the meshlets. -/
theorem convert_fixed_of_sameContent (ms1 ms2 : List meshlet)
    (h : List.Forall₂ SameContent ms1 ms2) :
    convert_for_gpu_usage_fixed ms1 = convert_for_gpu_usage_fixed ms2 := by
  simp only [convert_for_gpu_usage_fixed, fixed_loop_of_sameContent ms1 ms2 h]

theorem convert_fixed_data_none (ms : List meshlet) (out : List meshlet_gpu_data)
    (aux : Option (List Nat)) (h : convert_for_gpu_usage_fixed ms = .returns (out, aux)) :
    aux = none := by
  unfold convert_for_gpu_usage_fixed at h
  split at h
  · simp only [Outcome.returns.injEq, Prod.mk.injEq] at h
    exact h.2.symm
  · simp at h

/-! ## Facts about `divide_into_meshlets` -/

theorem divide_vertices_of_callable {P : Type} (aVertices : List P) (aIndices : List Nat)
    (aModel : model_t) (aMeshIndex : Option Nat) (aMaxVertices aMaxIndices : Nat)
    (cb : meshlet_division P) (hcb : cb ≠ .no_lambda) :
    divide_vertices_into_meshlets aVertices aIndices aModel aMeshIndex aMaxVertices
        aMaxIndices cb
      = .ok (assign_model aModel
          (cb.meshlets aVertices aIndices aModel aMeshIndex aMaxVertices aMaxIndices),
        [cb.call aVertices aIndices aModel aMeshIndex aMaxVertices aMaxIndices]) := by
  cases cb with
  | indices_only f => rfl
  | vertices_and_indices f => rfl
  | no_lambda => exact absurd rfl hcb

theorem submesh_loop_of_callable {P : Type} (q : model_queries P) (cb : meshlet_division P)
    (hcb : cb ≠ .no_lambda) (aMaxVertices aMaxIndices : Nat) (model : model_t)
    (meshIndices : List Nat) :
    ∀ st : List meshlet × List (division_call P),
      submesh_loop q cb aMaxVertices aMaxIndices model meshIndices st
        = .ok (st.1 ++ meshIndices.flatMap (fun meshIndex =>
              assign_model model (mesh_meshlets q cb aMaxVertices aMaxIndices model meshIndex)),
            st.2 ++ meshIndices.map (mesh_call q cb aMaxVertices aMaxIndices model)) := by
  induction meshIndices with
  | nil => intro st; simp [submesh_loop]
  | cons meshIndex rest ih =>
    intro st
    simp only [submesh_loop, divide_vertices_of_callable _ _ _ _ _ _ cb hcb, ih]
    simp [mesh_meshlets, mesh_call]

theorem model_loop_separate {P : Type} (q : model_queries P) (cb : meshlet_division P)
    (hcb : cb ≠ .no_lambda) (aMaxVertices aMaxIndices : Nat)
    (aModels : List (model_t × List Nat)) :
    ∀ st : List meshlet × List (division_call P),
      model_loop q cb aMaxVertices aMaxIndices false aModels st
        = .ok (st.1 ++ aModels.flatMap (fun pair => pair.2.flatMap (fun meshIndex =>
              assign_model pair.1
                (mesh_meshlets q cb aMaxVertices aMaxIndices pair.1 meshIndex))),
            st.2 ++ aModels.flatMap (fun pair =>
              pair.2.map (mesh_call q cb aMaxVertices aMaxIndices pair.1))) := by
  induction aModels with
  | nil => intro st; simp [model_loop]
  | cons pair rest ih =>
    intro st
    obtain ⟨model, meshIndices⟩ := pair
    simp only [model_loop, submesh_loop_of_callable q cb hcb, ih]
    simp

theorem model_loop_combined {P : Type} (q : model_queries P) (cb : meshlet_division P)
    (hcb : cb ≠ .no_lambda) (aMaxVertices aMaxIndices : Nat)
    (aModels : List (model_t × List Nat)) :
    ∀ st : List meshlet × List (division_call P),
      model_loop q cb aMaxVertices aMaxIndices true aModels st
        = .ok (st.1 ++ aModels.flatMap (fun pair =>
              assign_model pair.1
                (combined_meshlets q cb aMaxVertices aMaxIndices pair.1 pair.2)),
            st.2 ++ aModels.map (fun pair =>
              combined_call q cb aMaxVertices aMaxIndices pair.1 pair.2)) := by
  induction aModels with
  | nil => intro st; simp [model_loop]
  | cons pair rest ih =>
    intro st
    obtain ⟨model, meshIndices⟩ := pair
    simp only [model_loop, divide_vertices_of_callable _ _ _ _ _ _ cb hcb, ih]
    simp [combined_meshlets, combined_call]

/-! ## Facts about the loops of `skinned_meshlets_app::initialize` -/

theorem skinned_meshlets_app.merged_meshlets_append_one {G M : Type} (perMesh : List (List G))
    (dcs : List (skinned_meshlets_app.loaded_data_for_draw_call M)) (gpu : List G)
    (dc : skinned_meshlets_app.loaded_data_for_draw_call M) (h : dcs.length = perMesh.length) :
    skinned_meshlets_app.merged_meshlets (perMesh ++ [gpu]) (dcs ++ [dc])
      = skinned_meshlets_app.merged_meshlets perMesh dcs
        ++ gpu.map (skinned_meshlets_app.merged_entry dc perMesh.length) := by
  unfold skinned_meshlets_app.merged_meshlets
  rw [List.zip_append h.symm, List.enum_append, List.flatMap_append]
  simp [List.length_zip, h]

theorem skinned_meshlets_app.mesh_body_ok {G C M : Type} (redirected : Bool)
    (globalTransform : M) (i : Nat) (data : skinned_meshlets_app.model_data G C)
    (matOffset : Nat) (st st1 : skinned_meshlets_app.load_state G C M) (mpos meshIndex : Nat)
    (h : skinned_meshlets_app.mesh_body redirected globalTransform i data matOffset st mpos
      meshIndex = .ok st1) :
    ∃ meshletData,
      st1.allMatConfigs = st.allMatConfigs ∧
      st1.dataForDrawCall = st.dataForDrawCall
        ++ [skinned_meshlets_app.draw_call_data globalTransform i matOffset
              data.distinctMaterials meshIndex meshletData] ∧
      st1.meshletsGeometry = st.meshletsGeometry
        ++ (data.gpuMeshlets mpos meshIndex).1.map
            (skinned_meshlets_app.merged_entry
              (skinned_meshlets_app.draw_call_data globalTransform i matOffset
                data.distinctMaterials meshIndex meshletData) st.dataForDrawCall.length) := by
  unfold skinned_meshlets_app.mesh_body at h
  cases redirected with
  | false =>
    simp only [Bool.false_eq_true, if_false, Except.ok.injEq] at h
    subst h
    exact ⟨[], rfl, rfl, rfl⟩
  | true =>
    simp only [if_true] at h
    cases hd : (data.gpuMeshlets mpos meshIndex).2 with
    | none => simp [hd] at h
    | some d =>
      simp only [hd, Except.ok.injEq] at h
      subst h
      exact ⟨d, rfl, rfl, rfl⟩

theorem skinned_meshlets_app.mesh_body_inv {G C M : Type} (redirected : Bool)
    (globalTransform : M) (i : Nat) (data : skinned_meshlets_app.model_data G C)
    (matOffset : Nat) (st st1 : skinned_meshlets_app.load_state G C M) (mpos meshIndex : Nat)
    (perMesh : List (List G)) (hinv : skinned_meshlets_app.MergeInv perMesh st)
    (h : skinned_meshlets_app.mesh_body redirected globalTransform i data matOffset st mpos
      meshIndex = .ok st1) :
    skinned_meshlets_app.MergeInv (perMesh ++ [(data.gpuMeshlets mpos meshIndex).1]) st1 := by
  obtain ⟨md, _, hdc, hgeo⟩ :=
    skinned_meshlets_app.mesh_body_ok redirected globalTransform i data matOffset st st1 mpos
      meshIndex h
  obtain ⟨h1, h2, h3⟩ := hinv
  refine ⟨by simp [hdc, h1], ?_, ?_⟩
  · rw [hgeo, hdc, skinned_meshlets_app.merged_meshlets_append_one _ _ _ _ h1, h2, h1]
  · simp [hgeo, h3]

theorem skinned_meshlets_app.mesh_loop_inv {G C M : Type} (redirected : Bool)
    (globalTransform : M) (i : Nat) (data : skinned_meshlets_app.model_data G C)
    (matOffset : Nat) (rest : List Nat) :
    ∀ (mpos : Nat) (st st1 : skinned_meshlets_app.load_state G C M) (perMesh : List (List G)),
      skinned_meshlets_app.MergeInv perMesh st →
      skinned_meshlets_app.mesh_loop redirected globalTransform i data matOffset mpos rest st
        = .ok st1 →
      skinned_meshlets_app.MergeInv
        (perMesh ++ (rest.enumFrom mpos).map (fun pm => (data.gpuMeshlets pm.1 pm.2).1)) st1 := by
  induction rest with
  | nil =>
    intro mpos st st1 perMesh hinv h
    simp only [skinned_meshlets_app.mesh_loop, Except.ok.injEq] at h
    subst h
    simpa using hinv
  | cons meshIndex rest ih =>
    intro mpos st st1 perMesh hinv h
    simp only [skinned_meshlets_app.mesh_loop] at h
    cases hb : skinned_meshlets_app.mesh_body redirected globalTransform i data matOffset st
        mpos meshIndex with
    | error e => simp [hb] at h
    | ok st2 =>
      simp only [hb] at h
      have := ih (mpos + 1) st2 st1 _
        (skinned_meshlets_app.mesh_body_inv redirected globalTransform i data matOffset st st2
          mpos meshIndex perMesh hinv hb) h
      simpa using this

theorem skinned_meshlets_app.load_loop_inv {G C M : Type} (redirected : Bool)
    (globalTransform : M) (models : List (skinned_meshlets_app.model_data G C)) :
    ∀ (i : Nat) (st st1 : skinned_meshlets_app.load_state G C M) (perMesh : List (List G)),
      skinned_meshlets_app.MergeInv perMesh st →
      skinned_meshlets_app.load_loop redirected globalTransform i models st = .ok st1 →
      skinned_meshlets_app.MergeInv
        (perMesh ++ skinned_meshlets_app.per_mesh_meshlets models) st1 := by
  induction models with
  | nil =>
    intro i st st1 perMesh hinv h
    simp only [skinned_meshlets_app.load_loop, Except.ok.injEq] at h
    subst h
    simpa [skinned_meshlets_app.per_mesh_meshlets] using hinv
  | cons data rest ih =>
    intro i st st1 perMesh hinv h
    simp only [skinned_meshlets_app.load_loop] at h
    cases hb : skinned_meshlets_app.model_body redirected globalTransform i data st with
    | error e => simp [hb] at h
    | ok st2 =>
      simp only [hb] at h
      have hinv2 : skinned_meshlets_app.MergeInv
          (perMesh ++ data.meshIndicesInOrder.enum.map
            (fun pm => (data.gpuMeshlets pm.1 pm.2).1)) st2 := by
        unfold skinned_meshlets_app.model_body at hb
        refine skinned_meshlets_app.mesh_loop_inv redirected globalTransform i data _
          data.meshIndicesInOrder 0 _ st2 perMesh ?_ hb
        exact hinv
      have := ih (i + 1) st2 st1 _ hinv2 h
      simpa [skinned_meshlets_app.per_mesh_meshlets] using this

theorem skinned_meshlets_app.mem_merged_meshlets {G M : Type} (perMesh : List (List G))
    (dcs : List (skinned_meshlets_app.loaded_data_for_draw_call M))
    (e : skinned_meshlets_app.meshlet G M)
    (he : e ∈ skinned_meshlets_app.merged_meshlets perMesh dcs) :
    ∃ (n : Nat) (gpu : List G) (dc : skinned_meshlets_app.loaded_data_for_draw_call M) (g : G),
      perMesh[n]? = some gpu ∧ dcs[n]? = some dc ∧ g ∈ gpu ∧
        e = skinned_meshlets_app.merged_entry dc n g := by
  unfold skinned_meshlets_app.merged_meshlets at he
  obtain ⟨⟨n, gpu, dc⟩, hmem, hin⟩ := List.mem_flatMap.1 he
  obtain ⟨g, hg, rfl⟩ := List.mem_map.1 hin
  have hz : (perMesh.zip dcs)[n]? = some (gpu, dc) := List.mk_mem_enum_iff_getElem?.1 hmem
  obtain ⟨h1, h2⟩ := List.getElem?_zip_eq_some.1 hz
  exact ⟨n, gpu, dc, g, h1, h2, hg, rfl⟩

theorem skinned_meshlets_app.initialize_meshlets_inv {G C M : Type} (redirected : Bool)
    (globalTransform : M) (loadedModels : List (skinned_meshlets_app.model_data G C))
    (st : skinned_meshlets_app.load_state G C M)
    (h : skinned_meshlets_app.initialize_meshlets redirected globalTransform loadedModels
      = .ok st) :
    skinned_meshlets_app.MergeInv (skinned_meshlets_app.per_mesh_meshlets loadedModels) st := by
  have hinit : skinned_meshlets_app.MergeInv ([] : List (List G))
      ({ allMatConfigs := [], dataForDrawCall := [], meshletsGeometry := [] } :
        skinned_meshlets_app.load_state G C M) :=
    ⟨rfl, rfl, rfl⟩
  have := skinned_meshlets_app.load_loop_inv redirected globalTransform loadedModels 0 _ st []
    hinit h
  simpa using this

theorem skinned_meshlets_app.material_loop_eq {C : Type} (meshIndex : Nat)
    (distinctMaterials : List (C × List Nat)) :
    ∀ start : Nat, start < 4294967296 →
      skinned_meshlets_app.material_loop meshIndex distinctMaterials start
        = (start + distinctMaterials.findIdx (fun pair => decide (meshIndex ∈ pair.2)))
            % 4294967296 := by
  induction distinctMaterials with
  | nil =>
    intro start hs
    simp [skinned_meshlets_app.material_loop, Nat.mod_eq_of_lt hs]
  | cons pair rest ih =>
    intro start hs
    by_cases hmem : meshIndex ∈ pair.2
    · simp [skinned_meshlets_app.material_loop, List.findIdx_cons, hmem, Nat.mod_eq_of_lt hs]
    · rw [skinned_meshlets_app.material_loop, if_neg hmem, ih _ (Nat.mod_lt _ (by decide)),
        List.findIdx_cons]
      simp only [hmem, decide_False, cond_false]
      omega

theorem skinned_meshlets_app.mesh_loop_draw_calls {G C M : Type} (redirected : Bool)
    (globalTransform : M) (i : Nat) (data : skinned_meshlets_app.model_data G C)
    (matOffset : Nat) (rest : List Nat) :
    ∀ (mpos : Nat) (st st1 : skinned_meshlets_app.load_state G C M),
      skinned_meshlets_app.mesh_loop redirected globalTransform i data matOffset mpos rest st
        = .ok st1 →
      st1.allMatConfigs = st.allMatConfigs ∧
      ∃ added : List (skinned_meshlets_app.loaded_data_for_draw_call M),
        st1.dataForDrawCall = st.dataForDrawCall ++ added ∧
        ∀ (j meshIndex : Nat), rest[j]? = some meshIndex →
          ∃ dc, added[j]? = some dc ∧
            dc.mMaterialIndex = skinned_meshlets_app.material_loop meshIndex
              data.distinctMaterials (matOffset % 4294967296) := by
  induction rest with
  | nil =>
    intro mpos st st1 h
    simp only [skinned_meshlets_app.mesh_loop, Except.ok.injEq] at h
    subst h
    exact ⟨rfl, [], by simp, by simp⟩
  | cons meshIndex rest ih =>
    intro mpos st st1 h
    simp only [skinned_meshlets_app.mesh_loop] at h
    cases hb : skinned_meshlets_app.mesh_body redirected globalTransform i data matOffset st
        mpos meshIndex with
    | error e => simp [hb] at h
    | ok st2 =>
      simp only [hb] at h
      obtain ⟨md, hc2, hd2, _⟩ := skinned_meshlets_app.mesh_body_ok redirected globalTransform
        i data matOffset st st2 mpos meshIndex hb
      obtain ⟨hc, added, hd, hall⟩ := ih (mpos + 1) st2 st1 h
      refine ⟨hc.trans hc2,
        skinned_meshlets_app.draw_call_data globalTransform i matOffset data.distinctMaterials
          meshIndex md :: added, by rw [hd, hd2]; simp, ?_⟩
      intro j mi hj
      cases j with
      | zero =>
        simp only [List.getElem?_cons_zero, Option.some.injEq] at hj
        subst hj
        exact ⟨skinned_meshlets_app.draw_call_data globalTransform i matOffset
          data.distinctMaterials meshIndex md, by simp, rfl⟩
      | succ j =>
        simp only [List.getElem?_cons_succ] at hj ⊢
        exact hall j mi hj

theorem skinned_meshlets_app.model_body_grows {G C M : Type} (redirected : Bool)
    (globalTransform : M) (i : Nat) (data : skinned_meshlets_app.model_data G C)
    (st st1 : skinned_meshlets_app.load_state G C M)
    (h : skinned_meshlets_app.model_body redirected globalTransform i data st = .ok st1) :
    st1.allMatConfigs = st.allMatConfigs ++ data.distinctMaterials.map (fun pair => pair.1) ∧
    ∃ added : List (skinned_meshlets_app.loaded_data_for_draw_call M),
      st1.dataForDrawCall = st.dataForDrawCall ++ added ∧
      ∀ (mpos meshIndex : Nat), data.meshIndicesInOrder[mpos]? = some meshIndex →
        ∃ dc, added[mpos]? = some dc ∧
          dc.mMaterialIndex = skinned_meshlets_app.material_loop meshIndex
            data.distinctMaterials (st.allMatConfigs.length % 4294967296) := by
  unfold skinned_meshlets_app.model_body at h
  obtain ⟨hc, added, hd, hall⟩ := skinned_meshlets_app.mesh_loop_draw_calls redirected
    globalTransform i data _ data.meshIndicesInOrder 0 _ st1 h
  exact ⟨hc, added, hd, hall⟩

theorem skinned_meshlets_app.load_loop_grows {G C M : Type} (redirected : Bool)
    (globalTransform : M) (models : List (skinned_meshlets_app.model_data G C)) :
    ∀ (i : Nat) (st st1 : skinned_meshlets_app.load_state G C M),
      skinned_meshlets_app.load_loop redirected globalTransform i models st = .ok st1 →
      ∃ (configs : List C) (added : List (skinned_meshlets_app.loaded_data_for_draw_call M)),
        st1.allMatConfigs = st.allMatConfigs ++ configs ∧
        st1.dataForDrawCall = st.dataForDrawCall ++ added := by
  induction models with
  | nil =>
    intro i st st1 h
    simp only [skinned_meshlets_app.load_loop, Except.ok.injEq] at h
    subst h
    exact ⟨[], [], by simp, by simp⟩
  | cons data rest ih =>
    intro i st st1 h
    simp only [skinned_meshlets_app.load_loop] at h
    cases hb : skinned_meshlets_app.model_body redirected globalTransform i data st with
    | error e => simp [hb] at h
    | ok st2 =>
      simp only [hb] at h
      obtain ⟨hc2, added2, hd2, _⟩ := skinned_meshlets_app.model_body_grows redirected
        globalTransform i data st st2 hb
      obtain ⟨configs, added, hc, hd⟩ := ih (i + 1) st2 st1 h
      exact ⟨data.distinctMaterials.map (fun pair => pair.1) ++ configs, added2 ++ added,
        by rw [hc, hc2]; simp, by rw [hd, hd2]; simp⟩

/-- The position of the first entry of `distinctMaterials` whose mesh list contains the mesh
index, when there is one. -/
theorem skinned_meshlets_app.first_material {C : Type} (meshIndex : Nat)
    (distinctMaterials : List (C × List Nat))
    (h : ∃ pair ∈ distinctMaterials, meshIndex ∈ pair.2) :
    ∃ pair, distinctMaterials[distinctMaterials.findIdx
        (fun pair => decide (meshIndex ∈ pair.2))]? = some pair ∧
      meshIndex ∈ pair.2 ∧
      distinctMaterials.findIdx (fun pair => decide (meshIndex ∈ pair.2))
        < distinctMaterials.length ∧
      ∀ (j : Nat) (p : C × List Nat),
        j < distinctMaterials.findIdx (fun pair => decide (meshIndex ∈ pair.2)) →
        distinctMaterials[j]? = some p → meshIndex ∉ p.2 := by
  have hlt : distinctMaterials.findIdx (fun pair => decide (meshIndex ∈ pair.2))
      < distinctMaterials.length := by
    apply List.findIdx_lt_length_of_exists
    obtain ⟨pair, hp, hm⟩ := h
    exact ⟨pair, hp, by simpa using hm⟩
  refine ⟨distinctMaterials[distinctMaterials.findIdx
    (fun pair => decide (meshIndex ∈ pair.2))], List.getElem?_eq_getElem hlt, ?_, hlt, ?_⟩
  · have := @List.findIdx_getElem _ (fun pair : C × List Nat => decide (meshIndex ∈ pair.2))
      distinctMaterials hlt
    simpa using this
  · intro j p hj hp
    have hnot := @List.not_of_lt_findIdx _
      (fun pair : C × List Nat => decide (meshIndex ∈ pair.2)) distinctMaterials j hj
    have hjlt : j < distinctMaterials.length := by omega
    rw [List.getElem?_eq_getElem hjlt] at hp
    simp only [Option.some.injEq] at hp
    subst hp
    simpa using hnot

/-! ## Facts about the cache file name -/

theorem digit_char_ne_dash (d : Nat) : digit_char d ≠ '-' := by
  unfold digit_char
  split <;> decide

theorem digit_char_inj (a b : Nat) (ha : a < 10) (hb : b < 10)
    (h : digit_char a = digit_char b) : a = b := by
  interval_cases a <;> interval_cases b <;> first | rfl | (exact absurd h (by decide))

theorem dash_not_mem_to_string (n : Nat) : '-' ∉ to_string n := by
  unfold to_string
  split
  · decide
  · intro h
    obtain ⟨d, _, hd⟩ := List.mem_map.1 h
    exact digit_char_ne_dash d hd

theorem map_digit_char_inj :
    ∀ l1 l2 : List Nat, (∀ d ∈ l1, d < 10) → (∀ d ∈ l2, d < 10) →
      l1.map digit_char = l2.map digit_char → l1 = l2 := by
  intro l1
  induction l1 with
  | nil =>
    intro l2 _ _ h
    cases l2 with
    | nil => rfl
    | cons b l2 => simp at h
  | cons a l1 ih =>
    intro l2 h1 h2 h
    cases l2 with
    | nil => simp at h
    | cons b l2 =>
      simp only [List.map_cons, List.cons.injEq] at h
      have hab := digit_char_inj a b (h1 a (List.mem_cons_self _ _))
        (h2 b (List.mem_cons_self _ _)) h.1
      have hl := ih l2 (fun d hd => h1 d (List.mem_cons_of_mem _ hd))
        (fun d hd => h2 d (List.mem_cons_of_mem _ hd)) h.2
      rw [hab, hl]

theorem to_string_of_ne_zero_head (n : Nat) (hn : n ≠ 0) : to_string n ≠ ['0'] := by
  unfold to_string
  rw [if_neg hn]
  intro h
  have hne : Nat.digits 10 n ≠ [] := Nat.digits_ne_nil_iff_ne_zero.2 hn
  have hlast := Nat.getLast_digit_ne_zero 10 hn
  have hrev : (Nat.digits 10 n).reverse.map digit_char = [(0 : Nat)].map digit_char := by
    rw [h]; rfl
  have hdig := map_digit_char_inj _ _
    (fun d hd => Nat.digits_lt_base (by decide) (List.mem_reverse.1 hd))
    (fun d hd => by simp at hd; omega) hrev
  have hd0 : Nat.digits 10 n = [0] := by
    have := congrArg List.reverse hdig
    simpa using this
  apply hlast
  simp [hd0]

theorem to_string_inj (a b : Nat) (h : to_string a = to_string b) : a = b := by
  by_cases ha : a = 0
  · by_cases hb : b = 0
    · rw [ha, hb]
    · exfalso
      apply to_string_of_ne_zero_head b hb
      rw [← h, ha]; rfl
  · by_cases hb : b = 0
    · exfalso
      apply to_string_of_ne_zero_head a ha
      rw [h, hb]; rfl
    · unfold to_string at h
      rw [if_neg ha, if_neg hb] at h
      have hdig := map_digit_char_inj _ _
        (fun d hd => Nat.digits_lt_base (by decide) (List.mem_reverse.1 hd))
        (fun d hd => Nat.digits_lt_base (by decide) (List.mem_reverse.1 hd)) h
      have := congrArg List.reverse hdig
      simp only [List.reverse_reverse] at this
      exact Nat.digits.injective 10 this

/-- A list is split in one way only at the last occurrence of a character. -/
theorem append_cons_inj {α : Type} (c : α) :
    ∀ (l1 l2 t1 t2 : List α), c ∉ t1 → c ∉ t2 → l1 ++ c :: t1 = l2 ++ c :: t2 →
      l1 = l2 ∧ t1 = t2 := by
  intro l1 l2 t1 t2 h1 h2 h
  rcases List.append_eq_append_iff.1 h with ⟨a, hl, ht⟩ | ⟨a, hl, ht⟩
  · cases a with
    | nil => simp at hl ht; exact ⟨hl.symm, ht⟩
    | cons x a =>
      simp only [List.cons_append, List.cons.injEq] at ht
      exact absurd (by rw [ht.2]; simp) h1
  · cases a with
    | nil => simp at hl ht; exact ⟨hl, ht.symm⟩
    | cons x a =>
      simp only [List.cons_append, List.cons.injEq] at ht
      exact absurd (by rw [ht.2]; simp) h2

theorem skinned_meshlets_app.cache_file_name_inj (g1 g2 : Bool) (n1 n2 : List Char)
    (p1 p2 : Nat)
    (h : skinned_meshlets_app.cache_file_name g1 n1 p1
      = skinned_meshlets_app.cache_file_name g2 n2 p2) :
    n1 = n2 ∧ p1 = p2 ∧ g1 = g2 := by
  have hg : g1 = g2 := by
    cases g1 <;> cases g2
    · rfl
    · exfalso
      simp [skinned_meshlets_app.cache_file_name] at h
    · exfalso
      simp [skinned_meshlets_app.cache_file_name] at h
    · rfl
  subst hg
  unfold skinned_meshlets_app.cache_file_name at h
  simp only [List.append_assoc] at h
  have h2 := List.append_cancel_left h
  have h3 : (n1 ++ '-' :: to_string p1) ++ ".cache".toList
      = (n2 ++ '-' :: to_string p2) ++ ".cache".toList := by
    simpa using h2
  have h4 := List.append_cancel_right h3
  obtain ⟨hn, hp⟩ := append_cons_inj '-' n1 n2 (to_string p1) (to_string p2)
    (dash_not_mem_to_string p1) (dash_not_mem_to_string p2) h4
  exact ⟨hn, to_string_inj p1 p2 hp, rfl⟩

/-! ## Facts about the Content Cache -/

theorem lookup_store_of_ne (f g : fingerprint) (bytes : List Nat) (cache : cache_files)
    (h : g ≠ f) : lookup g (store f bytes cache) = lookup g cache := by
  simp [lookup, store, h]

/-! ## Facts about the bytes read and the counts stored -/

theorem mem_indexBytesRead (m : meshlet) (p : Nat) :
    p ∈ indexBytesRead m ↔ p < 4 * indexGroupCount m := by
  unfold indexBytesRead
  simp only [List.mem_flatMap, List.mem_range, List.mem_cons, List.mem_singleton,
    List.not_mem_nil, or_false]
  constructor
  · rintro ⟨i, hi, h | h | h | h⟩ <;> omega
  · intro h
    refine ⟨p / 4, by omega, ?_⟩
    omega

/-- The packing loop reads inside the index vector exactly when the vector holds
`4 * indexGroupCount` elements. -/
theorem indexBytesRead_inside_iff (m : meshlet) :
    (∀ p ∈ indexBytesRead m, p < m.mIndices.length) ↔ ReadsInsideIndices m := by
  unfold ReadsInsideIndices
  constructor
  · intro h
    by_contra hc
    have hpos : 0 < 4 * indexGroupCount m := by omega
    have := h (4 * indexGroupCount m - 1) ((mem_indexBytesRead m _).2 (by omega))
    omega
  · intro h p hp
    have := (mem_indexBytesRead m p).1 hp
    omega

/-- With a number of indices that is a multiple of 4 and not above the size of the vector,
the packing loop reads inside the index vector. -/
theorem readsInside_of_multiple_of_four (m : meshlet) (h4 : m.mIndexCount % 4 = 0)
    (hlen : m.mIndexCount ≤ m.mIndices.length) (hrange : m.mIndexCount + 3 < 4294967296) :
    ReadsInsideIndices m := by
  unfold ReadsInsideIndices
  rw [indexGroupCount_eq m hrange]
  omega

theorem fixed_entry_returns (m : meshlet) (e : meshlet_gpu_data)
    (h : fixed_entry m = .returns e) : e = paddedEntry m := by
  unfold fixed_entry copy_into_array at h
  by_cases hv : m.mVertices.length ≤ cFixedVertices
  · by_cases hi : m.mIndices.length ≤ cFixedIndices
    · simp only [hv, hi, if_true, Outcome.returns.injEq] at h
      rw [← h]; rfl
    · simp [hv, hi] at h
  · simp [hv] at h

theorem fixed_loop_returns (ms : List meshlet) :
    ∀ (acc out : List meshlet_gpu_data), fixed_loop ms acc = .returns out →
      out = acc ++ ms.map paddedEntry := by
  induction ms with
  | nil =>
    intro acc out h
    simp only [fixed_loop, Outcome.returns.injEq] at h
    simp [h]
  | cons m ms ih =>
    intro acc out h
    simp only [fixed_loop] at h
    cases he : fixed_entry m with
    | undefined => simp [he] at h
    | returns e =>
      simp only [he] at h
      rw [ih _ _ h, fixed_entry_returns m e he]
      simp

theorem convert_fixed_returns (ms : List meshlet) (out : List meshlet_gpu_data)
    (aux : Option (List Nat)) (h : convert_for_gpu_usage_fixed ms = .returns (out, aux)) :
    out = ms.map paddedEntry := by
  unfold convert_for_gpu_usage_fixed at h
  cases hl : fixed_loop ms [] with
  | undefined => simp [hl] at h
  | returns r =>
    simp only [hl, Outcome.returns.injEq, Prod.mk.injEq] at h
    rw [← h.1, fixed_loop_returns ms [] r hl]
    simp

/-- Whenever the fixed conversion runs on meshlets whose vectors fit the arrays of the
fixed form, for every meshlet with `mVertexCount ≤ 64` and `mIndexCount ≤ 378` the entry it
returns for that meshlet stores `mVertexCount` itself and `mIndexCount / 3` itself: the 8-bit
fields lose nothing. -/
theorem fixed_counts_of_fits (ms : List meshlet) (hfit : ∀ m ∈ ms, FitsFixed m) (k : Nat)
    (m : meshlet) (hk : ms[k]? = some m) (hv : m.mVertexCount ≤ 64) (hi : m.mIndexCount ≤ 378) :
    ∃ out e, convert_for_gpu_usage_fixed ms = .returns (out, none) ∧ out[k]? = some e ∧
      e.mVertexCount = m.mVertexCount ∧ e.mTriangleCount = m.mIndexCount / 3 := by
  refine ⟨_, paddedEntry m, convert_fixed_of_fits ms hfit, by simp [hk], ?_, ?_⟩
  · show m.mVertexCount % 256 = m.mVertexCount
    omega
  · show m.mIndexCount / 3 % 256 = m.mIndexCount / 3
    omega

/-- For every meshlet of the input, the entry stored for the meshlet has `mVertexCount` equal
to the meshlet's `mVertexCount` modulo 256 and `mTriangleCount` equal to `mIndexCount / 3`
modulo 256, in the indirect form and, whenever the fixed conversion returns, in the fixed
form; and these stored counts are the true counts exactly when `mVertexCount ≤ 255` and
`mIndexCount / 3 ≤ 255`. -/
theorem counts_modulo_256 (ms : List meshlet) (behind : Nat → Nat → Nat) (k : Nat)
    (m : meshlet) (hk : ms[k]? = some m) :
    (∃ e : meshlet_indirect_gpu_data,
      (convert_for_gpu_usage_indirect ms behind).1[k]? = some e ∧
      e.mVertexCount = m.mVertexCount % 256 ∧ e.mTriangleCount = m.mIndexCount / 3 % 256 ∧
      ((e.mVertexCount = m.mVertexCount ∧ e.mTriangleCount = m.mIndexCount / 3) ↔
        (m.mVertexCount ≤ 255 ∧ m.mIndexCount / 3 ≤ 255))) ∧
    (∀ (out : List meshlet_gpu_data) (aux : Option (List Nat)),
      convert_for_gpu_usage_fixed ms = .returns (out, aux) →
      ∃ e : meshlet_gpu_data, out[k]? = some e ∧
        e.mVertexCount = m.mVertexCount % 256 ∧ e.mTriangleCount = m.mIndexCount / 3 % 256 ∧
        ((e.mVertexCount = m.mVertexCount ∧ e.mTriangleCount = m.mIndexCount / 3) ↔
          (m.mVertexCount ≤ 255 ∧ m.mIndexCount / 3 ≤ 255))) := by
  have hiff : ∀ a b : Nat, (a % 256 = a ∧ b % 256 = b) ↔ (a ≤ 255 ∧ b ≤ 255) := by
    intro a b; omega
  constructor
  · refine ⟨indirect_entry m, by simp [convert_indirect_gpuMeshlets, hk], rfl, rfl, ?_⟩
    exact hiff _ _
  · intro out aux h
    rw [convert_fixed_returns ms out aux h]
    refine ⟨paddedEntry m, by simp [hk], rfl, rfl, ?_⟩
    exact hiff _ _

/-- The fixed conversion returns exactly when the vectors of every meshlet fit the arrays of
the fixed form; otherwise a copy of lines 179-180 writes behind its array. -/
theorem convert_fixed_undefined_iff (ms : List meshlet) :
    convert_for_gpu_usage_fixed ms = .undefined ↔ ∃ m ∈ ms, ¬ FitsFixed m := by
  constructor
  · intro h
    by_contra hc
    have hfit : ∀ m ∈ ms, FitsFixed m := by
      intro m hm
      by_contra hn
      exact hc ⟨m, hm, hn⟩
    rw [convert_fixed_of_fits ms hfit] at h
    cases h
  · rintro ⟨m, hm, hn⟩
    cases hr : convert_for_gpu_usage_fixed ms with
    | undefined => rfl
    | returns r =>
      exfalso
      obtain ⟨out, aux⟩ := r
      have hout := convert_fixed_returns ms out aux hr
      have hl : ∀ (l : List meshlet) (acc r2 : List meshlet_gpu_data),
          fixed_loop l acc = .returns r2 → ∀ m2 ∈ l, FitsFixed m2 := by
        intro l
        induction l with
        | nil => intro _ _ _ m2 hm2; simp at hm2
        | cons a l ih =>
          intro acc r2 hrun m2 hm2
          simp only [fixed_loop] at hrun
          cases he : fixed_entry a with
          | undefined => simp [he] at hrun
          | returns e =>
            simp only [he] at hrun
            rcases List.mem_cons.1 hm2 with rfl | hm3
            · unfold fixed_entry copy_into_array at he
              unfold FitsFixed
              by_cases hv : m2.mVertices.length ≤ cFixedVertices
              · by_cases hi : m2.mIndices.length ≤ cFixedIndices
                · exact ⟨hv, hi⟩
                · simp [hv, hi] at he
              · simp [hv] at he
            · exact ih _ _ hrun m2 hm3
      unfold convert_for_gpu_usage_fixed at hr
      cases hloop : fixed_loop ms [] with
      | undefined => simp [hloop] at hr
      | returns r3 => exact hn (hl ms [] r3 hloop m hm)

/-! ## Claims -/

/-- C1 (the code departs from the claim): at the two meshlets of scenario C, with 10
vertices and 12 indices, then 5 vertices and 6 indices, the indirect conversion returns the
offsets 0 and 0, although 10 + 3 = 13 words are written before the second meshlet and its
words start at position 13 of the meshlet data. -/
theorem C1_scenarioC_offsets :
    (convert_for_gpu_usage_indirect [scenarioC_first, scenarioC_second] zeroBehind).1.map
        (fun e => e.mDataOffset) = [0, 0]
    ∧ scenarioC_first.mVertexCount + (scenarioC_first.mIndexCount + 3) / 4 = 13
    ∧ ((convert_for_gpu_usage_indirect [scenarioC_first, scenarioC_second] zeroBehind).2.map
        (fun data => (data.drop 13).take 5)) = some scenarioC_second.mVertices := by
  decide

/-- C2 (the code departs from the claim): the two meshlets of scenario C satisfy the Cluster
invariant, and decoding the second entry of the indirect conversion at its `mDataOffset`
yields vertex 100, the first vertex of the first meshlet, where the second meshlet has
vertex 200. -/
theorem C2_scenarioC_decode_second :
    ClusterInvariant 64 378 scenarioC_first ∧ ClusterInvariant 64 378 scenarioC_second ∧
    ∃ e data,
      (convert_for_gpu_usage_indirect [scenarioC_first, scenarioC_second] zeroBehind).1[1]? = some e ∧
      (convert_for_gpu_usage_indirect [scenarioC_first, scenarioC_second] zeroBehind).2 = some data ∧
      data[e.mDataOffset + 0]? = some 100 ∧ scenarioC_second.mVertices[0]? = some 200 :=
  ⟨by decide, by decide, _, _, rfl, rfl, rfl, rfl⟩

/-- C4 (the claim as stated fails): the index stream `wideStream` names the 258 vertices
0 to 257 once each, its length 258 is divisible by 3, and the limits are
`aMaxVertices = 258 ≥ 3` and `aMaxIndices = 258 ≥ 3`, divisible by 3.
`divide_into_meshlets_simple` returns the one meshlet `wideMeshlet` with 258 vertices, whose
`mIndices`, of `uint8_t` elements, holds slot 256 as 0 and slot 257 as 1: the values
`mVertices[mIndices[j]]` for `j < mIndexCount` end in 0 and 1, where the input index stream
ends in 256 and 257, so they are not the input index stream. -/
theorem C4_wide_cluster_not_recovered :
    wideStream.length % 3 = 0 ∧ (3 ≤ 258 ∧ 3 ≤ 258 ∧ 258 % 3 = 0) ∧
      (∀ v ∈ wideStream, v < sampleModel.vertexCount none) ∧
      divide_into_meshlets_simple wideStream sampleModel none 258 258 = .ok [wideMeshlet] ∧
      [wideMeshlet].flatMap meshlet.triangles = List.range 256 ++ [0, 1] ∧
      wideStream = List.range 256 ++ [256, 257] ∧
      [wideMeshlet].flatMap meshlet.triangles ≠ wideStream := by
  refine ⟨by simp [wideStream], by decide, ?_, wideStream_meshlets, wideMeshlet_triangles,
    wideStream_eq, ?_⟩
  · intro v hv
    simp only [wideStream, List.mem_range] at hv
    show v < 1000
    omega
  · rw [wideMeshlet_triangles, wideStream_eq]
    intro h
    have h2 := List.append_cancel_left h
    revert h2
    decide

/-- C4 (amended): for every index stream whose length is divisible by 3 and that refers to
vertices of the mesh only, every `aMaxVertices` from 3 to 256 and every `aMaxIndices ≥ 3`
divisible by 3, `divide_into_meshlets_simple` returns meshlets such that the values
`mVertices[mIndices[j]]` for `j < mIndexCount`, concatenated over the meshlets in order, are
the input index stream, each meshlet contributes a multiple of 3 of them, and every
`mIndices[j]` read addresses an element of `mVertices`: every triangle of the input lies in
exactly one meshlet and is not split. -/
theorem C4_builder_coverage (aIndices : List Nat) (aModel : model_t) (aMeshIndex : Option Nat)
    (aMaxVertices aMaxIndices : Nat)
    (hlen : aIndices.length % 3 = 0) (hV : 3 ≤ aMaxVertices) (hV256 : aMaxVertices ≤ 256)
    (hI : 3 ≤ aMaxIndices) (hI3 : aMaxIndices % 3 = 0)
    (hvalid : ∀ v ∈ aIndices, v < aModel.vertexCount aMeshIndex) :
    ∃ ms, divide_into_meshlets_simple aIndices aModel aMeshIndex aMaxVertices aMaxIndices
        = .ok ms ∧
      ms.flatMap meshlet.triangles = aIndices ∧
      ∀ m ∈ ms, m.triangles.length = m.mIndexCount ∧ m.mIndexCount % 3 = 0 ∧
        ∀ j ∈ m.mIndices.take m.mIndexCount, j < m.mVertices.length := by
  obtain ⟨ms, hok, hcat, hall⟩ := divide_into_meshlets_simple_ok aIndices aModel aMeshIndex
    aMaxVertices aMaxIndices hlen hV hI hI3 hvalid
  refine ⟨ms, hok, hcat hV256, ?_⟩
  intro m hm
  obtain ⟨hinv, hvc, hic⟩ := hall m hm
  refine ⟨?_, hinv.2.2.2.2.2.2.1, ?_⟩
  · simp [meshlet.triangles, hic]
  · intro j hj
    rw [← hvc]
    exact hinv.2.2.2.2.2.2.2 j hj

theorem C4_builder_coverage_witness :
    ∃ ms, divide_into_meshlets_simple [0, 1, 2, 2, 1, 3, 3, 4, 5, 5, 5, 6, 0, 1, 2] sampleModel
        none 4 6 = .ok ms ∧
      ms.flatMap meshlet.triangles = [0, 1, 2, 2, 1, 3, 3, 4, 5, 5, 5, 6, 0, 1, 2] ∧
      ∀ m ∈ ms, m.triangles.length = m.mIndexCount ∧ m.mIndexCount % 3 = 0 ∧
        ∀ j ∈ m.mIndices.take m.mIndexCount, j < m.mVertices.length :=
  C4_builder_coverage [0, 1, 2, 2, 1, 3, 3, 4, 5, 5, 5, 6, 0, 1, 2] sampleModel none 4 6
    (by decide) (by decide) (by decide) (by decide) (by decide) (by decide)

/-- C5: for every valid input (an index stream whose length is divisible by 3 and that refers
to vertices of the mesh only, `aMaxVertices ≥ 3`, `aMaxIndices ≥ 3` divisible by 3), every
meshlet that `divide_into_meshlets_simple` returns has `mVertexCount ≤ aMaxVertices`,
`mIndexCount ≤ aMaxIndices`, `mIndexCount` divisible by 3, and every value in
`mIndices[0 .. mIndexCount)` smaller than `mVertexCount`. -/
theorem C5_builder_cluster_invariant (aIndices : List Nat) (aModel : model_t)
    (aMeshIndex : Option Nat) (aMaxVertices aMaxIndices : Nat)
    (hlen : aIndices.length % 3 = 0) (hV : 3 ≤ aMaxVertices) (hI : 3 ≤ aMaxIndices)
    (hI3 : aMaxIndices % 3 = 0) (hvalid : ∀ v ∈ aIndices, v < aModel.vertexCount aMeshIndex) :
    ∃ ms, divide_into_meshlets_simple aIndices aModel aMeshIndex aMaxVertices aMaxIndices
        = .ok ms ∧
      ∀ m ∈ ms, m.mVertexCount ≤ aMaxVertices ∧ m.mIndexCount ≤ aMaxIndices ∧
        m.mIndexCount % 3 = 0 ∧
        ∀ j, j < m.mIndexCount → ∃ b, m.mIndices[j]? = some b ∧ b < m.mVertexCount := by
  obtain ⟨ms, hok, _, hall⟩ := divide_into_meshlets_simple_ok aIndices aModel aMeshIndex
    aMaxVertices aMaxIndices hlen hV hI hI3 hvalid
  refine ⟨ms, hok, ?_⟩
  intro m hm
  obtain ⟨⟨_, _, _, hil, hvm, him, h3, hval⟩, _, _⟩ := hall m hm
  refine ⟨hvm, him, h3, ?_⟩
  intro j hj
  have hlt : j < m.mIndices.length := by omega
  refine ⟨m.mIndices[j], List.getElem?_eq_getElem hlt, hval _ ?_⟩
  rw [List.mem_iff_getElem?]
  exact ⟨j, by simp [List.getElem?_take, hj, hlt]⟩

theorem C5_builder_cluster_invariant_witness :
    ∃ ms, divide_into_meshlets_simple [0, 1, 2, 2, 1, 3, 3, 4, 5, 5, 5, 6, 0, 1, 2] sampleModel
        (some 1) 4 6 = .ok ms ∧
      ∀ m ∈ ms, m.mVertexCount ≤ 4 ∧ m.mIndexCount ≤ 6 ∧ m.mIndexCount % 3 = 0 ∧
        ∀ j, j < m.mIndexCount → ∃ b, m.mIndices[j]? = some b ∧ b < m.mVertexCount :=
  C5_builder_cluster_invariant [0, 1, 2, 2, 1, 3, 3, 4, 5, 5, 5, 6, 0, 1, 2] sampleModel
    (some 1) 4 6 (by decide) (by decide) (by decide) (by decide) (by decide)

/-- C6 (the code departs from the claim): for the meshlet with `mVertexCount = 3` in a
`mVertices` of 4 elements and `mIndexCount = 3`, the meshlet data has 5 words, the size of
`mVertices` plus one packed word, where the sum of the authoritative counts
`mVertexCount + ceil(mIndexCount / 4)` is 4. -/
theorem C6_spare_slot_data_length :
    (convert_for_gpu_usage_indirect [spareSlotMeshlet] zeroBehind).2.map List.length = some 5
    ∧ spareSlotMeshlet.mVertexCount + (spareSlotMeshlet.mIndexCount + 3) / 4 = 4 := by
  decide

/-- C7: in the indirect conversion, for every meshlet (the `k`-th of the input, with an index
count whose 32-bit sum `mIndexCount + 3` does not wrap) and every word position
`i < ceil(mIndexCount / 4)`, the `i`-th packed word of that meshlet in the meshlet data is
`b0 + 256 * b1 + 65536 * b2 + 16777216 * b3`, where `b0 .. b3` are the bytes at positions
`4 i .. 4 i + 3` of the index storage, and the byte at every position below `mIndexCount`
that `mIndices` has is the element of `mIndices` at that position. -/
theorem C7_index_packing (ms : List meshlet) (behind : Nat → Nat → Nat) (k : Nat) (m : meshlet)
    (hk : ms[k]? = some m) (hrange : m.mIndexCount + 3 < 4294967296)
    (i : Nat) (hi : i < (m.mIndexCount + 3) / 4) :
    ∃ data, (convert_for_gpu_usage_indirect ms behind).2 = some data ∧
      data[wordsBefore ms k + m.mVertices.length + i]?
        = some (indexByte m (behind k) (4 * i) + 256 * indexByte m (behind k) (4 * i + 1)
            + 65536 * indexByte m (behind k) (4 * i + 2)
            + 16777216 * indexByte m (behind k) (4 * i + 3)) ∧
      ∀ p, p < m.mIndexCount → ∀ h : p < m.mIndices.length,
        indexByte m (behind k) p = m.mIndices[p] := by
  obtain ⟨data, hd, hw⟩ := convert_indirect_packed_word ms behind k m hk i
    (by rw [indexGroupCount_eq m hrange]; exact hi)
  exact ⟨data, hd, hw, fun p _ h => indexByte_of_lt m (behind k) p h⟩

theorem C7_index_packing_witness :
    ∃ data, (convert_for_gpu_usage_indirect [scenarioC_first, scenarioC_second] zeroBehind).2
        = some data ∧
      data[wordsBefore [scenarioC_first, scenarioC_second] 1 + scenarioC_second.mVertices.length + 1]?
        = some (indexByte scenarioC_second (zeroBehind 1) (4 * 1)
            + 256 * indexByte scenarioC_second (zeroBehind 1) (4 * 1 + 1)
            + 65536 * indexByte scenarioC_second (zeroBehind 1) (4 * 1 + 2)
            + 16777216 * indexByte scenarioC_second (zeroBehind 1) (4 * 1 + 3)) ∧
      ∀ p, p < scenarioC_second.mIndexCount → ∀ h : p < scenarioC_second.mIndices.length,
        indexByte scenarioC_second (zeroBehind 1) p = scenarioC_second.mIndices[p] :=
  C7_index_packing [scenarioC_first, scenarioC_second] zeroBehind 1 scenarioC_second rfl
    (by decide) 1 (by decide)

/-- C8 (the claim as stated fails): the meshlet `staleByteMeshlet` has `mIndexCount = 3`, not
a multiple of 4, and byte 3 of its only packed word, which corresponds to index position
3 ≥ `mIndexCount`, is 7 and not zero. -/
theorem C8_padding_not_zeroed :
    staleByteMeshlet.mIndexCount % 4 ≠ 0 ∧
    ∃ data w, (convert_for_gpu_usage_indirect [staleByteMeshlet] zeroBehind).2 = some data ∧
      data[wordsBefore [staleByteMeshlet] 0 + staleByteMeshlet.mVertices.length + 3 / 4]? = some w ∧
      byteOfWord w (3 % 4) = 7 ∧ byteOfWord w (3 % 4) ≠ 0 :=
  ⟨by decide, _, _, rfl, rfl, by decide, by decide⟩

/-- C8 (amended): in the indirect conversion, for every meshlet whose `mIndices` elements are
bytes, every index position `p ≥ mIndexCount` that belongs to the last packed word
(`p < 4 * ceil(mIndexCount / 4)`) and that `mIndices` has an element for, byte `p % 4` of the
packed word `p / 4` is that element `mIndices[p]`: the conversion copies it and does not
zero it. -/
theorem C8_padding_is_vector_content (ms : List meshlet) (behind : Nat → Nat → Nat) (k : Nat)
    (m : meshlet) (hk : ms[k]? = some m) (hrange : m.mIndexCount + 3 < 4294967296)
    (hbytes : ∀ b ∈ m.mIndices, b < 256)
    (p : Nat) (hp : m.mIndexCount ≤ p) (hlast : p < 4 * ((m.mIndexCount + 3) / 4))
    (hvec : p < m.mIndices.length) :
    ∃ data w, (convert_for_gpu_usage_indirect ms behind).2 = some data ∧
      data[wordsBefore ms k + m.mVertices.length + p / 4]? = some w ∧
      byteOfWord w (p % 4) = m.mIndices[p] := by
  have hi : p / 4 < indexGroupCount m := by
    rw [indexGroupCount_eq m hrange]; omega
  obtain ⟨data, hd, hw⟩ := convert_indirect_packed_word ms behind k m hk (p / 4) hi
  refine ⟨data, _, hd, hw, ?_⟩
  have hlt := indexByte_lt m (behind k) hbytes
  rw [indexGroups, byteOfWord_pack _ _ _ _ (hlt _) (hlt _) (hlt _) (hlt _) (p % 4)
    (Nat.mod_lt _ (by decide)), ← indexByte_of_lt m (behind k) p hvec]
  have hcases : p % 4 = 0 ∨ p % 4 = 1 ∨ p % 4 = 2 ∨ p % 4 = 3 := by omega
  rcases hcases with h | h | h | h <;> rw [h] <;> simp <;> congr 1 <;> omega

theorem C8_padding_is_vector_content_witness :
    ∃ data w, (convert_for_gpu_usage_indirect [staleByteMeshlet] zeroBehind).2 = some data ∧
      data[wordsBefore [staleByteMeshlet] 0 + staleByteMeshlet.mVertices.length + 3 / 4]? = some w ∧
      byteOfWord w (3 % 4) = staleByteMeshlet.mIndices[3] :=
  C8_padding_is_vector_content [staleByteMeshlet] zeroBehind 0 staleByteMeshlet rfl (by decide)
    (by decide) 3 (by decide) (by decide) (by decide)

/-- C9 (the code departs from the claim): `overlongIndexMeshlet` has `mVertexCount = 3 ≤ 64`
and `mIndexCount = 3 ≤ 378`, and its `mIndices` holds 380 elements. Line 180 copies all 380
of them, not the first `mIndexCount`, into the array `mIndices[378]`: the last two, 9 and 8,
are written behind the array, where `meshlet_gpu_data` declares `mVertexCount` and
`mTriangleCount` (lines 34-38), after lines 177-178 have stored the counts 3 and 1. The
conversion runs into undefined behaviour and returns no entry that stores 3 and 1. -/
theorem C9_overlong_indices_overrun_counts :
    overlongIndexMeshlet.mVertexCount ≤ 64 ∧ overlongIndexMeshlet.mIndexCount ≤ 378 ∧
    overlongIndexMeshlet.mIndices.length = 380 ∧
    overlongIndexMeshlet.mIndices.drop cFixedIndices = [9, 8] ∧
    copy_into_array overlongIndexMeshlet.mIndices cFixedIndices = .undefined ∧
    convert_for_gpu_usage_fixed [overlongIndexMeshlet] = .undefined := by
  decide!

/-- C10 (the claim as stated fails): for the meshlet `overCountMeshlet`, with
`mVertexCount = 65 > 64` and `mIndexCount = 381 > 378`, the fixed conversion returns an
encoded result with one entry, which stores the counts 65 and 127. -/
theorem C10_over_count_is_converted :
    64 < overCountMeshlet.mVertexCount ∧ 378 < overCountMeshlet.mIndexCount ∧
    ∃ e, convert_for_gpu_usage_fixed [overCountMeshlet] = .returns ([e], none) ∧
      e.mVertexCount = 65 ∧ e.mTriangleCount = 127 :=
  ⟨by decide, by decide, _, rfl, rfl, rfl⟩

/-- C10 (amended): the fixed conversion checks no capacity. For every sequence of meshlets
whose vectors fit the arrays of the fixed form, whatever their `mVertexCount` and
`mIndexCount` are, it returns an encoded result with one entry per meshlet, and the entry
of each meshlet stores `mVertexCount % 256` and `mIndexCount / 3 % 256`. -/
theorem C10_no_capacity_check (ms : List meshlet) (hfit : ∀ m ∈ ms, FitsFixed m) :
    ∃ out, convert_for_gpu_usage_fixed ms = .returns (out, none) ∧ out.length = ms.length ∧
      ∀ (k : Nat) (m : meshlet), ms[k]? = some m → ∃ e : meshlet_gpu_data, out[k]? = some e ∧
        e.mVertexCount = m.mVertexCount % 256 ∧ e.mTriangleCount = m.mIndexCount / 3 % 256 := by
  refine ⟨_, convert_fixed_of_fits ms hfit, by simp, ?_⟩
  intro k m hk
  exact ⟨paddedEntry m, by simp [hk], rfl, rfl⟩

theorem C10_no_capacity_check_witness :
    ∃ out, convert_for_gpu_usage_fixed [overCountMeshlet] = .returns (out, none) ∧
      out.length = [overCountMeshlet].length ∧
      ∀ (k : Nat) (m : meshlet), [overCountMeshlet][k]? = some m →
        ∃ e : meshlet_gpu_data, out[k]? = some e ∧
        e.mVertexCount = m.mVertexCount % 256 ∧ e.mTriangleCount = m.mIndexCount / 3 % 256 :=
  C10_no_capacity_check [overCountMeshlet] (by decide)

/-- C11 (the code departs from the claim): for the empty sequence of meshlets the indirect
conversion returns no meshlet data: `vertexIndices` is only given a value inside the loop
of line 173 and is still `std::nullopt` when the loop runs zero times. -/
theorem C11_indirect_empty_returns_no_data (behind : Nat → Nat → Nat) :
    convert_for_gpu_usage_indirect [] behind = ([], none) := by
  rfl

/-- C12: for every sequence of meshlets, the `mDataOffset` values of the entries the indirect
conversion returns are non-decreasing in output order: each is at most every later one. -/
theorem C12_offsets_non_decreasing (ms : List meshlet) (behind : Nat → Nat → Nat) :
    ((convert_for_gpu_usage_indirect ms behind).1.map (fun e => e.mDataOffset)).Pairwise
      (fun a b => a ≤ b) := by
  rw [convert_indirect_gpuMeshlets, List.map_map, List.pairwise_map]
  exact List.pairwise_of_forall (fun _ _ => Nat.le_refl 0)

/-- C16 (the code departs from the claim): `oneTriangleMeshlet` and `oneTriangleMeshletCopy`
have identical content, with `mIndexCount = 3` in a `mIndices` of 3 elements, and the
indirect conversion turns them into different meshlet data when the byte behind the three
index bytes is 0 in one run and 255 in the other: the last word is 131328 or 4278321408. -/
theorem C16_padding_depends_on_memory :
    SameContent oneTriangleMeshlet oneTriangleMeshletCopy ∧
    (convert_for_gpu_usage_indirect [oneTriangleMeshlet] zeroBehind).2
      = some [10, 11, 12, 131328] ∧
    (convert_for_gpu_usage_indirect [oneTriangleMeshletCopy] onesBehind).2
      = some [10, 11, 12, 4278321408] := by
  decide

/-- C19 (the claim as stated fails): for one model with handle 7 and the mesh indices 4 and 5,
without combining submeshes, the callback `sampleDivision` returns meshlets with
`mModel = 0`, and `divide_into_meshlets` returns meshlets with `mModel = 7`: the result is
not the concatenation of the meshlets the callback returns. -/
theorem C19_callback_meshlets_are_changed :
    ∃ out calls,
      divide_into_meshlets sampleQueries [(sampleModel, [4, 5])] sampleDivision 64 378 false
        = .ok (out, calls) ∧
      out ≠ [4, 5].flatMap (mesh_meshlets sampleQueries sampleDivision 64 378 sampleModel) ∧
      out.map (fun m => m.mModel) = [7, 7] ∧
      ([4, 5].flatMap (mesh_meshlets sampleQueries sampleDivision 64 378 sampleModel)).map
        (fun m => m.mModel) = [0, 0] :=
  ⟨_, _, rfl, by decide, by decide, by decide⟩

/-- C19 (amended): for every callback of one of the two callable kinds, when
`aCombineSubmeshes` is false the result of `divide_into_meshlets` is the concatenation, over
the models in order and over each model's mesh indices in order, of the meshlets the
callback returns for that mesh, that mesh index and the given `aMaxVertices` and
`aMaxIndices`, each with `mModel` overwritten by the model, and the callback is invoked once
per mesh, in that order; when `aCombineSubmeshes` is true the result is the concatenation
over the models of the meshlets the callback returns for the combined buffers and no mesh
index, each with `mModel` overwritten by the model, and the callback is invoked once per
model. -/
theorem C19_divide_into_meshlets {P : Type} (q : model_queries P)
    (aModels : List (model_t × List Nat)) (cb : meshlet_division P)
    (aMaxVertices aMaxIndices : Nat) (hcb : cb ≠ .no_lambda) :
    divide_into_meshlets q aModels cb aMaxVertices aMaxIndices false
      = .ok (aModels.flatMap (fun pair => pair.2.flatMap (fun meshIndex =>
            assign_model pair.1 (mesh_meshlets q cb aMaxVertices aMaxIndices pair.1 meshIndex))),
          aModels.flatMap (fun pair =>
            pair.2.map (mesh_call q cb aMaxVertices aMaxIndices pair.1))) ∧
    divide_into_meshlets q aModels cb aMaxVertices aMaxIndices true
      = .ok (aModels.flatMap (fun pair =>
            assign_model pair.1 (combined_meshlets q cb aMaxVertices aMaxIndices pair.1 pair.2)),
          aModels.map (fun pair =>
            combined_call q cb aMaxVertices aMaxIndices pair.1 pair.2)) := by
  constructor
  · simp [divide_into_meshlets, model_loop_separate q cb hcb]
  · simp [divide_into_meshlets, model_loop_combined q cb hcb]

theorem C19_divide_into_meshlets_witness :
    divide_into_meshlets sampleQueries [(sampleModel, [4, 5])] sampleDivision 64 378 false
      = .ok ([(sampleModel, [4, 5])].flatMap (fun pair => pair.2.flatMap (fun meshIndex =>
            assign_model pair.1
              (mesh_meshlets sampleQueries sampleDivision 64 378 pair.1 meshIndex))),
          [(sampleModel, [4, 5])].flatMap (fun pair =>
            pair.2.map (mesh_call sampleQueries sampleDivision 64 378 pair.1))) ∧
    divide_into_meshlets sampleQueries [(sampleModel, [4, 5])] sampleDivision 64 378 true
      = .ok ([(sampleModel, [4, 5])].flatMap (fun pair =>
            assign_model pair.1
              (combined_meshlets sampleQueries sampleDivision 64 378 pair.1 pair.2)),
          [(sampleModel, [4, 5])].map (fun pair =>
            combined_call sampleQueries sampleDivision 64 378 pair.1 pair.2)) :=
  C19_divide_into_meshlets sampleQueries [(sampleModel, [4, 5])] sampleDivision 64 378
    (by simp [sampleDivision])

/-- C20: for every callback of one of the two callable kinds and every input,
`divide_vertices_into_meshlets` returns a list of the same length as the list the callback
returns for `aIndices`, `aMeshIndex`, `aMaxVertices` and `aMaxIndices`, in the same order,
and each returned meshlet has the `mMeshIndex`, `mVertices`, `mIndices`, `mVertexCount` and
`mIndexCount` of the callback's meshlet at its position; its `mModel` is the given model. -/
theorem C20_only_model_overwritten {P : Type} (aVertices : List P) (aIndices : List Nat)
    (aModel : model_t) (aMeshIndex : Option Nat) (aMaxVertices aMaxIndices : Nat)
    (cb : meshlet_division P) (hcb : cb ≠ .no_lambda) :
    ∃ out calls,
      divide_vertices_into_meshlets aVertices aIndices aModel aMeshIndex aMaxVertices
        aMaxIndices cb = .ok (out, calls) ∧
      out.length
        = (cb.meshlets aVertices aIndices aModel aMeshIndex aMaxVertices aMaxIndices).length ∧
      ∀ (k : Nat) (m : meshlet),
        (cb.meshlets aVertices aIndices aModel aMeshIndex aMaxVertices aMaxIndices)[k]? = some m →
        ∃ r : meshlet, out[k]? = some r ∧ r.mMeshIndex = m.mMeshIndex ∧
          r.mVertices = m.mVertices ∧ r.mIndices = m.mIndices ∧
          r.mVertexCount = m.mVertexCount ∧ r.mIndexCount = m.mIndexCount ∧
          r.mModel = aModel.mHandle := by
  refine ⟨_, _, divide_vertices_of_callable aVertices aIndices aModel aMeshIndex aMaxVertices
    aMaxIndices cb hcb, by simp [assign_model], ?_⟩
  intro k m hk
  exact ⟨{ m with mModel := aModel.mHandle }, by simp [assign_model, hk], rfl, rfl, rfl, rfl,
    rfl, rfl⟩

theorem C20_only_model_overwritten_witness :
    ∃ out calls,
      divide_vertices_into_meshlets [4, 5] [4, 4, 4] sampleModel (some 4) 64 378 sampleDivision
        = .ok (out, calls) ∧
      out.length = (sampleDivision.meshlets [4, 5] [4, 4, 4] sampleModel (some 4) 64 378).length ∧
      ∀ (k : Nat) (m : meshlet),
        (sampleDivision.meshlets [4, 5] [4, 4, 4] sampleModel (some 4) 64 378)[k]? = some m →
        ∃ r : meshlet, out[k]? = some r ∧ r.mMeshIndex = m.mMeshIndex ∧
          r.mVertices = m.mVertices ∧ r.mIndices = m.mIndices ∧
          r.mVertexCount = m.mVertexCount ∧ r.mIndexCount = m.mIndexCount ∧
          r.mModel = sampleModel.mHandle :=
  C20_only_model_overwritten [4, 5] [4, 4, 4] sampleModel (some 4) 64 378 sampleDivision
    (by simp [sampleDivision])

/-- C17: when the loops of `initialize` complete, `dataForDrawCall` has one entry per
processed mesh and the global meshlet list is, for the processed meshes in order, one entry
per GPU meshlet of the mesh in order, whose `mGeometry` is that GPU meshlet, whose
`mTransformationMatrix`, `mMaterialIndex` and `mModelIndex` are those of the draw-call entry
of the mesh and whose `mTexelBufferIndex` is the position of that draw-call entry (as a
`uint32_t`); `mNumMeshletWorkgroups` is the sum of the per-mesh meshlet counts; and with at
most `2 ^ 32` draw calls every entry of the global list has at `mTexelBufferIndex` a
draw-call entry with its matrix, material index and model index. -/
theorem C17_orchestrator_merge {G C M : Type} (USE_REDIRECTED_GPU_DATA : Bool)
    (globalTransform : M) (loadedModels : List (skinned_meshlets_app.model_data G C))
    (st : skinned_meshlets_app.load_state G C M)
    (h : skinned_meshlets_app.initialize_meshlets USE_REDIRECTED_GPU_DATA globalTransform
      loadedModels = .ok st) :
    st.dataForDrawCall.length = (skinned_meshlets_app.per_mesh_meshlets loadedModels).length ∧
    st.meshletsGeometry
      = skinned_meshlets_app.merged_meshlets
          (skinned_meshlets_app.per_mesh_meshlets loadedModels) st.dataForDrawCall ∧
    skinned_meshlets_app.mNumMeshletWorkgroups st
      = ((skinned_meshlets_app.per_mesh_meshlets loadedModels).map List.length).sum ∧
    (st.dataForDrawCall.length ≤ 4294967296 →
      ∀ e ∈ st.meshletsGeometry, ∃ dc : skinned_meshlets_app.loaded_data_for_draw_call M,
        st.dataForDrawCall[e.mTexelBufferIndex]? = some dc ∧
        e.mTransformationMatrix = dc.mModelMatrix ∧ e.mMaterialIndex = dc.mMaterialIndex ∧
        e.mModelIndex = dc.mModelIndex) := by
  obtain ⟨h1, h2, h3⟩ := skinned_meshlets_app.initialize_meshlets_inv USE_REDIRECTED_GPU_DATA
    globalTransform loadedModels st h
  refine ⟨h1, h2, h3, ?_⟩
  intro hsmall e he
  rw [h2] at he
  obtain ⟨n, gpu, dc, g, _, hdc, _, rfl⟩ := skinned_meshlets_app.mem_merged_meshlets _ _ e he
  have hn : n < st.dataForDrawCall.length := by
    by_contra hc
    rw [List.getElem?_eq_none (by omega)] at hdc
    exact absurd hdc (by simp)
  refine ⟨dc, ?_, rfl, rfl, rfl⟩
  show st.dataForDrawCall[n % 4294967296]? = some dc
  rw [Nat.mod_eq_of_lt (by omega)]
  exact hdc

theorem C17_orchestrator_merge_witness :
    ∃ st : skinned_meshlets_app.load_state Nat Nat Nat,
      skinned_meshlets_app.initialize_meshlets true 99
        [skinned_meshlets_app.sampleData, skinned_meshlets_app.sampleData] = .ok st ∧
      st.dataForDrawCall.length
        = (skinned_meshlets_app.per_mesh_meshlets
            [skinned_meshlets_app.sampleData, skinned_meshlets_app.sampleData]).length ∧
      st.meshletsGeometry
        = skinned_meshlets_app.merged_meshlets
            (skinned_meshlets_app.per_mesh_meshlets
              [skinned_meshlets_app.sampleData, skinned_meshlets_app.sampleData])
            st.dataForDrawCall ∧
      skinned_meshlets_app.mNumMeshletWorkgroups st
        = ((skinned_meshlets_app.per_mesh_meshlets
            [skinned_meshlets_app.sampleData, skinned_meshlets_app.sampleData]).map
              List.length).sum ∧
      (st.dataForDrawCall.length ≤ 4294967296 →
        ∀ e ∈ st.meshletsGeometry, ∃ dc : skinned_meshlets_app.loaded_data_for_draw_call Nat,
          st.dataForDrawCall[e.mTexelBufferIndex]? = some dc ∧
          e.mTransformationMatrix = dc.mModelMatrix ∧ e.mMaterialIndex = dc.mMaterialIndex ∧
          e.mModelIndex = dc.mModelIndex) :=
  ⟨_, rfl, C17_orchestrator_merge true 99
    [skinned_meshlets_app.sampleData, skinned_meshlets_app.sampleData] _ rfl⟩

/-- C18: in the loop of `initialize`, from the iteration of a model on (with `matOffset` the
size of `allMatConfigs` at its start, and no more than `2 ^ 32` material configs up to this
model): for every mesh of the model whose index is contained in the mesh list of at least
one entry of `distinctMaterials`, the draw-call entry of the mesh has
`mMaterialIndex = matOffset + k`, where `k` is the position of the first entry of
`distinctMaterials` whose mesh list contains the mesh index, and when the loops complete
`allMatConfigs[mMaterialIndex]` is the material config of that entry. -/
theorem C18_material_assignment {G C M : Type} (USE_REDIRECTED_GPU_DATA : Bool)
    (globalTransform : M) (i : Nat) (data : skinned_meshlets_app.model_data G C)
    (rest : List (skinned_meshlets_app.model_data G C))
    (st stFinal : skinned_meshlets_app.load_state G C M)
    (hrun : skinned_meshlets_app.load_loop USE_REDIRECTED_GPU_DATA globalTransform i
      (data :: rest) st = .ok stFinal)
    (mpos meshIndex : Nat) (hmesh : data.meshIndicesInOrder[mpos]? = some meshIndex)
    (hcontained : ∃ pair ∈ data.distinctMaterials, meshIndex ∈ pair.2)
    (hsmall : st.allMatConfigs.length + data.distinctMaterials.length ≤ 4294967296) :
    ∃ (k : Nat) (pair : C × List Nat) (dc : skinned_meshlets_app.loaded_data_for_draw_call M),
      data.distinctMaterials[k]? = some pair ∧ meshIndex ∈ pair.2 ∧
      (∀ (j : Nat) (p : C × List Nat), j < k → data.distinctMaterials[j]? = some p →
        meshIndex ∉ p.2) ∧
      stFinal.dataForDrawCall[st.dataForDrawCall.length + mpos]? = some dc ∧
      dc.mMaterialIndex = st.allMatConfigs.length + k ∧
      stFinal.allMatConfigs[dc.mMaterialIndex]? = some pair.1 := by
  obtain ⟨pair, hpair, hmem, hk, hfirst⟩ :=
    skinned_meshlets_app.first_material meshIndex data.distinctMaterials hcontained
  simp only [skinned_meshlets_app.load_loop] at hrun
  cases hb : skinned_meshlets_app.model_body USE_REDIRECTED_GPU_DATA globalTransform i data st with
  | error e => simp [hb] at hrun
  | ok st2 =>
    simp only [hb] at hrun
    obtain ⟨hc2, added2, hd2, hall⟩ := skinned_meshlets_app.model_body_grows
      USE_REDIRECTED_GPU_DATA globalTransform i data st st2 hb
    obtain ⟨configs, added, hc, hd⟩ := skinned_meshlets_app.load_loop_grows
      USE_REDIRECTED_GPU_DATA globalTransform rest (i + 1) st2 stFinal hrun
    obtain ⟨dc, hdc, hmat⟩ := hall mpos meshIndex hmesh
    have hmlt : mpos < added2.length := by
      by_contra hcon
      rw [List.getElem?_eq_none (by omega)] at hdc
      exact absurd hdc (by simp)
    have hindex : dc.mMaterialIndex = st.allMatConfigs.length
        + data.distinctMaterials.findIdx (fun pair => decide (meshIndex ∈ pair.2)) := by
      rw [hmat, skinned_meshlets_app.material_loop_eq _ _ _ (Nat.mod_lt _ (by decide))]
      omega
    refine ⟨_, pair, dc, hpair, hmem, hfirst, ?_, hindex, ?_⟩
    · rw [hd, hd2, List.append_assoc, List.getElem?_append_right (Nat.le_add_right _ _),
        Nat.add_sub_cancel_left, List.getElem?_append_left hmlt]
      exact hdc
    · rw [hindex, hc, hc2, List.append_assoc,
        List.getElem?_append_right (Nat.le_add_right _ _), Nat.add_sub_cancel_left,
        List.getElem?_append_left (by simpa using hk), List.getElem?_map, hpair]
      rfl

theorem C18_material_assignment_witness :
    ∃ stFinal : skinned_meshlets_app.load_state Nat Nat Nat,
      skinned_meshlets_app.load_loop true 99 0
        [skinned_meshlets_app.sampleData, skinned_meshlets_app.sampleData]
        { allMatConfigs := [], dataForDrawCall := [], meshletsGeometry := [] } = .ok stFinal ∧
      ∃ (k : Nat) (pair : Nat × List Nat)
        (dc : skinned_meshlets_app.loaded_data_for_draw_call Nat),
        skinned_meshlets_app.sampleData.distinctMaterials[k]? = some pair ∧ 6 ∈ pair.2 ∧
        (∀ (j : Nat) (p : Nat × List Nat), j < k →
          skinned_meshlets_app.sampleData.distinctMaterials[j]? = some p → 6 ∉ p.2) ∧
        stFinal.dataForDrawCall[
          ({ allMatConfigs := [], dataForDrawCall := [], meshletsGeometry := [] } :
            skinned_meshlets_app.load_state Nat Nat Nat).dataForDrawCall.length + 1]? = some dc ∧
        dc.mMaterialIndex
          = ({ allMatConfigs := [], dataForDrawCall := [], meshletsGeometry := [] } :
              skinned_meshlets_app.load_state Nat Nat Nat).allMatConfigs.length + k ∧
        stFinal.allMatConfigs[dc.mMaterialIndex]? = some pair.1 :=
  ⟨_, rfl, C18_material_assignment true 99 0 skinned_meshlets_app.sampleData
    [skinned_meshlets_app.sampleData] _ _ rfl 1 6 rfl ⟨(21, [6, 5]), by decide, by decide⟩
    (by decide)⟩

/-- C14 (the claim as stated fails): the cached conversions of the mesh `crab` at position 0
with the capacities 64 and 378 and with the capacities 32 and 126 differ in `maxVertices`
and in `maxIndices` and are given the same cache file. -/
theorem C14_capacities_share_a_file :
    (skinned_meshlets_app.cached_conversion_of 64 378 false "crab".toList 0).numVertices
      ≠ (skinned_meshlets_app.cached_conversion_of 32 126 false "crab".toList 0).numVertices ∧
    (skinned_meshlets_app.cached_conversion_of 64 378 false "crab".toList 0).numIndices
      ≠ (skinned_meshlets_app.cached_conversion_of 32 126 false "crab".toList 0).numIndices ∧
    (skinned_meshlets_app.cached_conversion_of 64 378 false "crab".toList 0).file
      = (skinned_meshlets_app.cached_conversion_of 32 126 false "crab".toList 0).file :=
  ⟨by decide, by decide, rfl⟩

/-- C14 (amended): the cache file name chosen by the orchestrator is determined by the
format, the mesh name and the sub-mesh position alone: for every mesh, two conversions in
the same format are stored under the same file name whatever their `maxVertices` and
`maxIndices` are. -/
theorem C14_file_ignores_capacities (v1 i1 v2 i2 : Nat) (USE_REDIRECTED_GPU_DATA : Bool)
    (meshname : List Char) (mpos : Nat) :
    (skinned_meshlets_app.cached_conversion_of v1 i1 USE_REDIRECTED_GPU_DATA meshname mpos).file
      = (skinned_meshlets_app.cached_conversion_of v2 i2 USE_REDIRECTED_GPU_DATA meshname
          mpos).file ∧
    (skinned_meshlets_app.cached_conversion_of v1 i1 USE_REDIRECTED_GPU_DATA meshname mpos).file
      = skinned_meshlets_app.cache_file_name USE_REDIRECTED_GPU_DATA meshname mpos :=
  ⟨rfl, rfl⟩

/-- C15: the cache file name built by the orchestrator, the prefix `direct_meshlets-` or
`indirect_meshlets-`, then the mesh name, `-`, the decimal sub-mesh position and `.cache`,
is injective: for all mesh names, also such with `-` or digits in them, all positions and
both formats, equal file names imply equal mesh names, equal positions and equal formats. -/
theorem C15_cache_file_name_injective (g1 g2 : Bool) (n1 n2 : List Char) (p1 p2 : Nat)
    (h : skinned_meshlets_app.cache_file_name g1 n1 p1
      = skinned_meshlets_app.cache_file_name g2 n2 p2) :
    n1 = n2 ∧ p1 = p2 ∧ g1 = g2 :=
  skinned_meshlets_app.cache_file_name_inj g1 g2 n1 n2 p1 p2 h

theorem C15_cache_file_name_injective_witness :
    "crab-1".toList = "crab-1".toList ∧ 12 = 12 ∧ true = true :=
  C15_cache_file_name_injective true true "crab-1".toList "crab-1".toList 12 12 rfl

/-- C21 (the code departs from the claim): the full meshlet `fullMeshlet` has
`mIndexCount = 378`, the size of its `mIndices`, and the packing loop of the indirect
conversion reads the bytes at positions 378 and 379 of the index storage, behind the end of
the vector. -/
theorem C21_full_meshlet_reads_past_end :
    fullMeshlet.mIndexCount ≤ fullMeshlet.mIndices.length ∧
    fullMeshlet.mIndices.length = 378 ∧
    378 ∈ indexBytesRead fullMeshlet ∧ 379 ∈ indexBytesRead fullMeshlet := by
  refine ⟨by simp [fullMeshlet], by simp [fullMeshlet], ?_, ?_⟩
  · exact (mem_indexBytesRead fullMeshlet 378).2 (by decide)
  · exact (mem_indexBytesRead fullMeshlet 379).2 (by decide)

/-- C22 (the code departs from the claim): `overlongIndexMeshlet`, the second meshlet of the
input, has `mVertexCount = 3`, `mIndexCount = 3` and 380 elements in `mIndices`. The indirect
conversion stores the counts `3 % 256` and `3 / 3 % 256` for it. In the fixed conversion the
vectors do not fit the arrays: the copy of line 180 writes the elements 378 and 379, which
are 9 and 8, behind the array `mIndices[378]`, where the two count fields lie; the conversion
runs into undefined behaviour and returns no entry that stores the counts modulo 256. -/
theorem C22_fixed_counts_lost_on_overrun :
    (convert_for_gpu_usage_indirect [scenarioC_first, overlongIndexMeshlet] zeroBehind).1[1]?
      = some { mDataOffset := 0, mVertexCount := 3 % 256, mTriangleCount := 3 / 3 % 256 } ∧
    ¬ FitsFixed overlongIndexMeshlet ∧
    overlongIndexMeshlet.mIndices.drop cFixedIndices = [9, 8] ∧
    fixed_entry overlongIndexMeshlet = .undefined ∧
    convert_for_gpu_usage_fixed [scenarioC_first, overlongIndexMeshlet] = .undefined := by
  decide!

end gvk
